import Mathlib

set_option maxRecDepth 8000

/- Shallow embedding of the calc command-line arithmetic evaluator.

   The repository file src/main.cpp holds two implementations of the same
   tool, separated by a document marker: a 64-bit one (functions parse,
   check, calc, print_result, run) and a 32-bit one (functions parse_int,
   parse_operation, run_operation and a monolithic main).  The spec calls
   them "the two embedded reference implementations"; the claims cite line
   ranges in both, so both are embedded here, as namespaces Impl1 (the
   64-bit program) and Impl2 (the 32-bit program).

   The arithmetic engine mathlib (ml_add, ml_sub, ml_mul, ml_div, ml_pow,
   ml_fact, ml_result, ml_error, ml_kind) is not part of the repository
   sources; only its callers are.  Its behavior is modelled from the spec,
   in the definitions marked "Modelled from the spec".

   Side effects are made explicit: every embedded function returns, along
   with its result, the list of observable events it performs, in order.
   An event is a line printed to standard output, the usage text printed
   to standard output, a line printed to standard error, or an invocation
   of a mathlib engine function.  getopt tokenization (which the spec
   treats as an external collaborator) is embedded as a list of already
   tokenized flag occurrences, each carrying its optarg string. -/

/-- Operation enum; both implementations declare this same enum class. -/
inductive operation where
  | none
  | add
  | sub
  | mul
  | div
  | pow
  | fact
deriving DecidableEq

/-- Exit code enum; both implementations declare this same enum class:
ok = 0, usage = 1, math = 2. -/
inductive exit_code where
  | ok
  | usage
  | math
deriving DecidableEq

/-- Modelled from the spec: the error kind carried by a mathlib result
(mathlib is not in the repository sources).  The spec's ErrorKind lists
divide-by-zero and overflow as the engine-level errors; the callers also
test these two members of mathlib's ml_error, plus the ok member. -/
inductive ml_error where
  | ok
  | div0
  | overflow
deriving DecidableEq

/-- Observable event performed by the embedded program: a result line on
standard output, the usage text on standard output (the help functions
print it with std printf), a diagnostic line on standard error, or an
invocation of a mathlib engine function (named by the event). -/
inductive Ev where
  | out (s : String)
  | help (prog : String)
  | err (s : String)
  | engine (f : String)
deriving DecidableEq

/-- Event classification: events written on standard output. -/
def Ev.isStdout : Ev → Bool
  | .out _ => true
  | .help _ => true
  | _ => false

/-- Event classification: numeric result lines on standard output. -/
def Ev.isOut : Ev → Bool
  | .out _ => true
  | _ => false

/-- Event classification: invocations of a mathlib engine function. -/
def Ev.isEngine : Ev → Bool
  | .engine _ => true
  | _ => false

/-- Flag occurrence as delivered by getopt_long with option string
"o:a:b:h": the -o (long form --op), -a and -b flags each carry their
optarg string, -h (long form --help) carries nothing, and unknown covers
any unrecognized flag (the getopt default case). -/
inductive Tok where
  | o (s : String)
  | a (s : String)
  | b (s : String)
  | h
  | unknown
deriving DecidableEq

/-- Usage text printed by the help functions of both implementations
(their format strings are identical; prog is substituted for each %s). -/
def usageText (prog : String) : String :=
  "Usage:\n  " ++ prog ++ " -o <op> -a <int> [-b <int>]\n\n" ++
  "Operations:\n  add   a + b\n  sub   a - b\n  mul   a * b\n" ++
  "  div   a / b   (checks division by 0)\n" ++
  "  pow   a ^ b   (b must be >= 0)\n" ++
  "  fact  a!      (a must be >= 0)\n\n" ++
  "Options:\n  -o, --op     operation name\n" ++
  "  -a, --a      first integer\n" ++
  "  -b, --b      second integer (required for add/sub/mul/div/pow)\n" ++
  "  -h, --help   show this help\n\n" ++
  "Examples:\n  " ++ prog ++ " -o add  -a 2  -b 3\n  " ++
  prog ++ " -o fact -a 5\n"

/-- Characters treated as whitespace by strtol and strtoll in the default
locale: space, tab, newline, vertical tab, form feed, carriage return. -/
def isSpaceC (c : Char) : Bool :=
  c = ' ' || c = '\t' || c = '\n' || c = '\x0b' || c = '\x0c' || c = '\r'

/-- Base-10 value of a digit character. -/
def digVal (c : Char) : Nat := c.toNat - 48

/-- Base-10 value of a digit string. -/
def digitsVal (l : List Char) : Nat := l.foldl (fun n c => 10 * n + digVal c) 0

/-- Sign read by strtol and strtoll: -1 when the first character after
the skipped whitespace is a minus, else 1. -/
def signOf (cs : List Char) : Int := if cs.head? = some '-' then -1 else 1

/-- Strip one leading sign character if present. -/
def stripSign (cs : List Char) : List Char :=
  if cs.head? = some '-' || cs.head? = some '+' then cs.tail else cs

/-- Digit run read after the whitespace and the optional sign. -/
def digitsOf (s : String) : List Char :=
  (stripSign (s.data.dropWhile isSpaceC)).takeWhile Char.isDigit

/-- Characters left over after the digit run. -/
def restOf (s : String) : List Char :=
  (stripSign (s.data.dropWhile isSpaceC)).dropWhile Char.isDigit

/-- Value read from the string: the signed base-10 value of the digit
run. -/
def valOf (s : String) : Int :=
  signOf (s.data.dropWhile isSpaceC) * (digitsVal (digitsOf s) : Int)

/-- Model of the C number-parsing pattern shared by parse_i64 (strtoll,
a rejection of trailing characters via end, and ERANGE) and parse_int
(strtol, the same end checks, and an explicit INT_MIN..INT_MAX range
check): skip leading whitespace, read an optional sign and a nonempty
run of base-10 digits, require the string to end there, and require the
mathematical value to lie in lo..hi. -/
def strtolModel (lo hi : Int) (s : String) : Option Int :=
  if digitsOf s = [] then none
  else if restOf s ≠ [] then none
  else if valOf s < lo ∨ hi < valOf s then none
  else some (valOf s)

namespace Impl1

/-- Context accumulated by the first implementation's parse function
(struct context, without the ml_result field, which calc produces). -/
structure context where
  op : operation := .none
  have_op : Bool := false
  a : Int := 0
  have_a : Bool := false
  b : Int := 0
  have_b : Bool := false
deriving DecidableEq

/-- Operation table entry (struct op_spec). -/
structure op_spec where
  name : String
  op : operation

/-- Fixed operation table kOps. -/
def kOps : List op_spec :=
  [⟨"add", .add⟩, ⟨"sub", .sub⟩, ⟨"mul", .mul⟩,
   ⟨"div", .div⟩, ⟨"pow", .pow⟩, ⟨"fact", .fact⟩]

/-- needs_b: whether the operation requires the second operand. -/
def needs_b (op : operation) : Bool :=
  op == .add || op == .sub || op == .mul || op == .div || op == .pow

/-- parse_i64: strtoll in base 10, rejecting empty conversions, trailing
characters, and ERANGE (the value outside the long long range, which is
the int64 range -2^63 .. 2^63 - 1). -/
def parse_i64 (s : String) : Option Int :=
  strtolModel (-(2 ^ 63)) (2 ^ 63 - 1) s

/-- parse_op: case-sensitive exact lookup in the kOps table. -/
def parse_op (s : String) : Option operation :=
  (kOps.find? (fun sp => sp.name == s)).map op_spec.op

/-- ml_kind: the two-variant representation tag on the first
implementation's mathlib result (print_result branches on it). -/
inductive ml_kind where
  | i64
  | u64
deriving DecidableEq

/-- Modelled from the spec: the first implementation's mathlib result.
The payload is kept as its 64-bit pattern (bits, in 0 .. 2^64 - 1); the
kind tag says whether the payload is to be read as a signed int64 (the
value.i64 union member) or an unsigned uint64 (the value.u64 member). -/
structure ml_result where
  error : ml_error := .ok
  kind : ml_kind := .i64
  bits : Nat := 0
deriving DecidableEq

/-- 64-bit pattern of an integer (the two's-complement reduction used by
a signed-to-64-bit store and by static_cast to uint64_t). -/
def toBits (v : Int) : Nat := (v % (2 : Int) ^ 64).toNat

/-- Signed int64 reading of a 64-bit pattern. -/
def toSigned (bits : Nat) : Int :=
  if bits < 2 ^ 63 then (bits : Int) else (bits : Int) - 2 ^ 64

/-- static_cast of a signed 64-bit value to uint64_t (reduction modulo
2^64), as performed by calc on the pow exponent and the fact operand. -/
def toU64 (v : Int) : Nat := (v % (2 : Int) ^ 64).toNat

/-- Modelled from the spec: ml_add returns a + b as a signed int64
result, or an overflow error when the sum leaves the int64 range
(overflow detection is exact, never wrapping). -/
def ml_add (a b : Int) : ml_result :=
  if -(2 ^ 63) ≤ a + b ∧ a + b < 2 ^ 63 then ⟨.ok, .i64, toBits (a + b)⟩
  else ⟨.overflow, .i64, 0⟩

/-- Modelled from the spec: ml_sub returns a - b as a signed int64
result, or an overflow error when the difference leaves the int64
range. -/
def ml_sub (a b : Int) : ml_result :=
  if -(2 ^ 63) ≤ a - b ∧ a - b < 2 ^ 63 then ⟨.ok, .i64, toBits (a - b)⟩
  else ⟨.overflow, .i64, 0⟩

/-- Modelled from the spec: ml_mul returns a * b as a signed int64
result, or an overflow error when the product leaves the int64 range. -/
def ml_mul (a b : Int) : ml_result :=
  if -(2 ^ 63) ≤ a * b ∧ a * b < 2 ^ 63 then ⟨.ok, .i64, toBits (a * b)⟩
  else ⟨.overflow, .i64, 0⟩

/-- Modelled from the spec: ml_div returns the quotient truncated toward
zero as a signed int64 result, a divide-by-zero error when b = 0, and an
overflow error on the single unrepresentable edge case, the minimum
int64 value divided by -1. -/
def ml_div (a b : Int) : ml_result :=
  if b = 0 then ⟨.div0, .i64, 0⟩
  else if a = -(2 ^ 63) ∧ b = -1 then ⟨.overflow, .i64, 0⟩
  else ⟨.ok, .i64, toBits (Int.tdiv a b)⟩

/-- Modelled from the spec: ml_pow returns base ^ exponent, as an
unsigned uint64 result when the value is nonnegative and below 2^64, as
a signed int64 result when it is negative and at least -2^63 (a power
with a negative base is signed-valued by nature), and an overflow error
otherwise. -/
def ml_pow (a : Int) (e : Nat) : ml_result :=
  if 0 ≤ a ^ e ∧ a ^ e < 2 ^ 64 then ⟨.ok, .u64, (a ^ e).toNat⟩
  else if -(2 ^ 63) ≤ a ^ e ∧ a ^ e < 0 then ⟨.ok, .i64, toBits (a ^ e)⟩
  else ⟨.overflow, .i64, 0⟩

/-- Modelled from the spec: ml_fact returns n! as an unsigned uint64
result (a factorial is unsigned-valued by nature; 0! = 1), or an
overflow error when n! reaches 2^64. -/
def ml_fact (n : Nat) : ml_result :=
  if Nat.factorial n < 2 ^ 64 then ⟨.ok, .u64, Nat.factorial n⟩
  else ⟨.overflow, .i64, 0⟩

/-- print_math_err: maps an engine error to a stderr line and the math
exit code. -/
def print_math_err (wh : String) (e : ml_error) : List Ev × exit_code :=
  if e = .div0 then ([.err ("Error: " ++ wh ++ ": division by zero\n")], .math)
  else if e = .overflow then ([.err ("Error: " ++ wh ++ ": overflow\n")], .math)
  else ([.err ("Error: " ++ wh ++ ": math error\n")], .math)

/-- print_result: an erroneous result is forwarded to print_math_err
with context "calc"; a successful one is printed on standard output,
with the signed %lld conversion when the kind tag is i64 and the
unsigned %llu conversion when it is u64. -/
def print_result (r : ml_result) : List Ev × exit_code :=
  if r.error ≠ .ok then print_math_err "calc" r.error
  else if r.kind = .i64 then ([.out (toString (toSigned r.bits) ++ "\n")], .ok)
  else ([.out (toString r.bits ++ "\n")], .ok)

/-- parse: the getopt loop.  Each recognized flag occurrence overwrites
the corresponding context slot on success and aborts with a diagnostic
and the usage exit code on failure; -h prints the help text and returns
the usage exit code; an unknown flag prints the help text and returns
the usage exit code. -/
def parse (c : context) (toks : List Tok) (prog : String) :
    List Ev × Except exit_code context :=
  match toks with
  | [] => ([], .ok c)
  | .o s :: rest =>
    match parse_op s with
    | some op => parse { c with op := op, have_op := true } rest prog
    | none =>
      ([.err ("Error: unknown operation \x27" ++ s ++ "\x27\n")], .error .usage)
  | .a s :: rest =>
    match parse_i64 s with
    | some v => parse { c with a := v, have_a := true } rest prog
    | none =>
      ([.err ("Error: invalid integer for -a: \x27" ++ s ++ "\x27\n")],
       .error .usage)
  | .b s :: rest =>
    match parse_i64 s with
    | some v => parse { c with b := v, have_b := true } rest prog
    | none =>
      ([.err ("Error: invalid integer for -b: \x27" ++ s ++ "\x27\n")],
       .error .usage)
  | .h :: _ => ([.help prog], .error .usage)
  | .unknown :: _ => ([.help prog], .error .usage)

/-- check: presence of -o and -a, the arity cross-check of -b against
needs_b, then the pow and fact domain pre-checks, in the source's
order. -/
def check (c : context) (prog : String) : List Ev × exit_code :=
  if !c.have_op || !c.have_a then
    ([.err "Error: missing -o or -a\n", .help prog], .usage)
  else if !needs_b c.op && c.have_b then
    ([.err "Error: useless -b for this op\n", .help prog], .usage)
  else if needs_b c.op && !c.have_b then
    ([.err "Error: missing -b for this op\n", .help prog], .usage)
  else if c.op = .pow ∧ c.b < 0 then
    ([.err "Error: pow: domain error (b must be >= 0)\n"], .math)
  else if c.op = .fact ∧ c.a < 0 then
    ([.err "Error: fact: domain error (a must be >= 0)\n"], .math)
  else ([], .ok)

/-- calc: dispatches to the engine; pow and fact receive their operand
through a static_cast to uint64_t.  The operation::none branch prints a
diagnostic and returns the usage exit code without touching the
engine. -/
def calcFn (c : context) : List Ev × exit_code × ml_result :=
  match c.op with
  | .add => ([.engine "ml_add"], .ok, ml_add c.a c.b)
  | .sub => ([.engine "ml_sub"], .ok, ml_sub c.a c.b)
  | .mul => ([.engine "ml_mul"], .ok, ml_mul c.a c.b)
  | .div => ([.engine "ml_div"], .ok, ml_div c.a c.b)
  | .pow => ([.engine "ml_pow"], .ok, ml_pow c.a (toU64 c.b))
  | .fact => ([.engine "ml_fact"], .ok, ml_fact (toU64 c.a))
  | .none => ([.err "Error: unknown operation\n"], .usage, {})

/-- runCtx: the portion of run after parsing: check, then calc, then
print_result, stopping at the first non-ok exit code. -/
def runCtx (c : context) (prog : String) : List Ev × exit_code :=
  let (tr1, rc1) := check c prog
  if rc1 ≠ .ok then (tr1, rc1)
  else
    let (tr2, rc2, r) := calcFn c
    if rc2 ≠ .ok then (tr1 ++ tr2, rc2)
    else
      let (tr3, rc3) := print_result r
      (tr1 ++ tr2 ++ tr3, rc3)

/-- run: parse into a context, then check, calc and print_result,
stopping at the first non-ok exit code. -/
def run (toks : List Tok) (prog : String) : List Ev × exit_code :=
  match parse {} toks prog with
  | (tr, .error rc) => (tr, rc)
  | (tr, .ok c) =>
    let (tr2, rc) := runCtx c prog
    (tr ++ tr2, rc)

/-- Mathematical value of the requested operation on the operands of a
context (for div with divisor 0 and for pow or fact on a negative
operand the request never reaches the engine, so the value returned
here for those arguments is immaterial; div uses the quotient truncated
toward zero, the one the spec defines). -/
def mathValue (c : context) : Int :=
  match c.op with
  | .add => c.a + c.b
  | .sub => c.a - c.b
  | .mul => c.a * c.b
  | .div => Int.tdiv c.a c.b
  | .pow => c.a ^ c.b.toNat
  | .fact => (Nat.factorial c.a.toNat : Int)
  | .none => 0

/-- Representable range of the engine for each operation, as modelled:
int64 for add, sub, mul and div; the signed-or-unsigned 64-bit span for
pow; the uint64 range for fact. -/
def representable (op : operation) (v : Int) : Prop :=
  match op with
  | .add => -(2 ^ 63) ≤ v ∧ v < 2 ^ 63
  | .sub => -(2 ^ 63) ≤ v ∧ v < 2 ^ 63
  | .mul => -(2 ^ 63) ≤ v ∧ v < 2 ^ 63
  | .div => -(2 ^ 63) ≤ v ∧ v < 2 ^ 63
  | .pow => -(2 ^ 63) ≤ v ∧ v < 2 ^ 64
  | .fact => 0 ≤ v ∧ v < 2 ^ 64
  | .none => True

instance (op : operation) (v : Int) : Decidable (representable op v) := by
  unfold representable
  cases op <;> infer_instance

end Impl1

example : Impl1.parse_i64 "42" = some 42 := by decide
example : Impl1.parse_i64 " -7" = some (-7) := by decide
example : Impl1.parse_i64 "4x" = none := by decide
example : Impl1.parse_i64 "" = none := by decide
example : Impl1.parse_i64 "9223372036854775808" = none := by decide
example : Impl1.parse_op "pow" = some .pow := by decide
example : Impl1.parse_op "xor" = none := by decide
example :
    Impl1.run [.o "add", .a "2", .b "3"] "calc" =
      ([.engine "ml_add", .out "5\n"], .ok) := by decide
example :
    Impl1.run [.o "fact", .a "5"] "calc" =
      ([.engine "ml_fact", .out "120\n"], .ok) := by decide
example :
    Impl1.run [.o "div", .a "7", .b "0"] "calc" =
      ([.engine "ml_div", .err "Error: calc: division by zero\n"], .math) := by
  decide
example :
    Impl1.run [.o "pow", .a "2", .b "-1"] "calc" =
      ([.err "Error: pow: domain error (b must be >= 0)\n"], .math) := by decide
example : (Impl1.run [.h] "calc") = ([.help "calc"], .usage) := by decide

namespace Impl2

/-- Modelled from the spec: the second implementation's mathlib result
(mathlib is not in the repository sources).  The callers print r.value
with the signed %d conversion and test r.error, so the result carries a
plain signed int value and an error kind, with no representation tag. -/
structure ml_result where
  value : Int := 0
  error : ml_error := .ok
deriving DecidableEq

/-- parse_int: strtol in base 10, rejecting empty conversions, trailing
characters, and values outside INT_MIN .. INT_MAX (the int32 range
-2^31 .. 2^31 - 1). -/
def parse_int (s : String) : Option Int :=
  strtolModel (-(2 ^ 31)) (2 ^ 31 - 1) s

/-- parse_operation: case-sensitive exact lookup in the kOps table (the
second implementation declares the identical table). -/
def parse_operation (s : String) : Option operation :=
  (Impl1.kOps.find? (fun sp => sp.name == s)).map Impl1.op_spec.op

/-- needs_b: whether the operation requires the second operand (the
second implementation writes it as a switch with the same content). -/
def needs_b (op : operation) : Bool :=
  match op with
  | .add => true
  | .sub => true
  | .mul => true
  | .div => true
  | .pow => true
  | .fact => false
  | .none => false

/-- static_cast of a signed value to unsigned int (reduction modulo
2^32), as performed by run_operation on the pow exponent and the fact
operand. -/
def toU32 (v : Int) : Nat := (v % (2 : Int) ^ 32).toNat

/-- Modelled from the spec: ml_add over int, returning a + b or an
overflow error when the sum leaves the int32 range (the value carried
by an erroneous result is not specified by the spec; it is modelled as
0, and no theorem below depends on that choice except by displaying
it). -/
def ml_add (a b : Int) : ml_result :=
  if -(2 ^ 31) ≤ a + b ∧ a + b < 2 ^ 31 then ⟨a + b, .ok⟩ else ⟨0, .overflow⟩

/-- Modelled from the spec: ml_sub over int. -/
def ml_sub (a b : Int) : ml_result :=
  if -(2 ^ 31) ≤ a - b ∧ a - b < 2 ^ 31 then ⟨a - b, .ok⟩ else ⟨0, .overflow⟩

/-- Modelled from the spec: ml_mul over int. -/
def ml_mul (a b : Int) : ml_result :=
  if -(2 ^ 31) ≤ a * b ∧ a * b < 2 ^ 31 then ⟨a * b, .ok⟩ else ⟨0, .overflow⟩

/-- Modelled from the spec: ml_div over int: the quotient truncated
toward zero, a divide-by-zero error when b = 0, and an overflow error on
the INT_MIN divided by -1 edge case. -/
def ml_div (a b : Int) : ml_result :=
  if b = 0 then ⟨0, .div0⟩
  else if a = -(2 ^ 31) ∧ b = -1 then ⟨0, .overflow⟩
  else ⟨Int.tdiv a b, .ok⟩

/-- Modelled from the spec: ml_pow over int with an unsigned exponent,
returning base ^ exponent or an overflow error when the value leaves the
int32 range. -/
def ml_pow (a : Int) (e : Nat) : ml_result :=
  if -(2 ^ 31) ≤ a ^ e ∧ a ^ e < 2 ^ 31 then ⟨a ^ e, .ok⟩ else ⟨0, .overflow⟩

/-- Modelled from the spec: ml_fact over an unsigned operand, returning
n! or an overflow error when n! leaves the int32 range of the int result
value. -/
def ml_fact (n : Nat) : ml_result :=
  if (Nat.factorial n : Int) < 2 ^ 31 then ⟨(Nat.factorial n : Int), .ok⟩
  else ⟨0, .overflow⟩

/-- print_math_error: maps an engine error to a stderr line and the math
exit code; only div0 has a dedicated message, every other error prints
the generic unknown math error line. -/
def print_math_error (name : String) (e : ml_error) : List Ev × exit_code :=
  if e = .div0 then
    ([.err ("Error: " ++ name ++ ": division by zero\n")], .math)
  else ([.err ("Error: " ++ name ++ ": unknown math error\n")], .math)

/-- run_operation: dispatches on the operation.  For add, sub and mul it
prints r.value with %d and returns ok without examining r.error; for div
it forwards a non-ok r.error to print_math_error and otherwise prints
the value; for pow and fact it re-checks the domain (returning the math
exit code on a negative exponent or operand), invokes the engine through
a static_cast to unsigned int, prints r.value with %d and returns ok
without examining r.error; operation::none prints a diagnostic and
returns the usage exit code. -/
def run_operation (op : operation) (a b : Int) : List Ev × exit_code :=
  match op with
  | .add =>
    let r := ml_add a b
    ([.engine "ml_add", .out (toString r.value ++ "\n")], .ok)
  | .sub =>
    let r := ml_sub a b
    ([.engine "ml_sub", .out (toString r.value ++ "\n")], .ok)
  | .mul =>
    let r := ml_mul a b
    ([.engine "ml_mul", .out (toString r.value ++ "\n")], .ok)
  | .div =>
    let r := ml_div a b
    if r.error ≠ .ok then
      let (tr, rc) := print_math_error "div" r.error
      ([.engine "ml_div"] ++ tr, rc)
    else ([.engine "ml_div", .out (toString r.value ++ "\n")], .ok)
  | .pow =>
    if b < 0 then
      ([.err "Error: pow: domain error (b must be >= 0)\n"], .math)
    else
      let r := ml_pow a (toU32 b)
      ([.engine "ml_pow", .out (toString r.value ++ "\n")], .ok)
  | .fact =>
    if a < 0 then
      ([.err "Error: fact: domain error (a must be >= 0)\n"], .math)
    else
      let r := ml_fact (toU32 a)
      ([.engine "ml_fact", .out (toString r.value ++ "\n")], .ok)
  | .none => ([.err "Error: unknown operation\n"], .usage)

/-- State accumulated by the second implementation's main before
dispatch (its local variables op, have_op, a, have_a, b, have_b). -/
structure state where
  op : operation := .none
  have_op : Bool := false
  a : Int := 0
  have_a : Bool := false
  b : Int := 0
  have_b : Bool := false
deriving DecidableEq

/-- getopt loop of the second implementation's main: like the first
implementation's, except that -h prints the help text and exits with
the ok code. -/
def parseLoop (st : state) (toks : List Tok) (prog : String) :
    List Ev × Except exit_code state :=
  match toks with
  | [] => ([], .ok st)
  | .o s :: rest =>
    match parse_operation s with
    | some op => parseLoop { st with op := op, have_op := true } rest prog
    | none =>
      ([.err ("Error: unknown operation \x27" ++ s ++ "\x27\n")], .error .usage)
  | .a s :: rest =>
    match parse_int s with
    | some v => parseLoop { st with a := v, have_a := true } rest prog
    | none =>
      ([.err ("Error: invalid integer for -a: \x27" ++ s ++ "\x27\n")],
       .error .usage)
  | .b s :: rest =>
    match parse_int s with
    | some v => parseLoop { st with b := v, have_b := true } rest prog
    | none =>
      ([.err ("Error: invalid integer for -b: \x27" ++ s ++ "\x27\n")],
       .error .usage)
  | .h :: _ => ([.help prog], .error .ok)
  | .unknown :: _ => ([.help prog], .error .usage)

/-- main of the second implementation: the getopt loop, then the
presence, arity and pow domain checks in order, then run_operation. -/
def main (toks : List Tok) (prog : String) : List Ev × exit_code :=
  match parseLoop {} toks prog with
  | (tr, .error rc) => (tr, rc)
  | (tr, .ok st) =>
    if !st.have_op || !st.have_a then
      (tr ++ [.err "Error: missing required arguments\n", .help prog], .usage)
    else if !needs_b st.op && st.have_b then
      (tr ++ [.err "Error: useless -b for this operation\n", .help prog],
       .usage)
    else if needs_b st.op && !st.have_b then
      (tr ++ [.err "Error: missing -b for this operation\n", .help prog],
       .usage)
    else if st.op = .pow ∧ st.b < 0 then
      (tr ++ [.err "Error: pow: domain error (b must be >= 0)\n"], .math)
    else
      let (tr2, rc) := run_operation st.op st.a st.b
      (tr ++ tr2, rc)

/-- Mathematical value of the requested operation (as in Impl1 but for
the second implementation's operand handling). -/
def mathValue (op : operation) (a b : Int) : Int :=
  match op with
  | .add => a + b
  | .sub => a - b
  | .mul => a * b
  | .div => Int.tdiv a b
  | .pow => a ^ b.toNat
  | .fact => (Nat.factorial a.toNat : Int)
  | .none => 0

/-- Representable range of the second implementation's engine: the int32
range for every operation. -/
def representable (op : operation) (v : Int) : Prop :=
  match op with
  | .none => True
  | _ => -(2 ^ 31) ≤ v ∧ v < 2 ^ 31

instance (op : operation) (v : Int) : Decidable (representable op v) := by
  unfold representable
  cases op <;> infer_instance

end Impl2

example :
    Impl2.main [.o "add", .a "2", .b "3"] "calc" =
      ([.engine "ml_add", .out "5\n"], .ok) := by decide
example :
    Impl2.main [.o "fact", .a "5"] "calc" =
      ([.engine "ml_fact", .out "120\n"], .ok) := by decide
example : Impl2.main [.h] "calc" = ([.help "calc"], .ok) := by decide
example :
    Impl2.run_operation .div 7 0 =
      ([.engine "ml_div", .err "Error: div: division by zero\n"], .math) := by
  decide
example :
    Impl2.run_operation .add 2147483647 1 =
      ([.engine "ml_add", .out "0\n"], .ok) := by decide

/- Helper lemmas about check (Impl1). -/

/-- Engine function invoked by calc for each operation. -/
def Impl1.engineName : operation → String
  | .add => "ml_add"
  | .sub => "ml_sub"
  | .mul => "ml_mul"
  | .div => "ml_div"
  | .pow => "ml_pow"
  | .fact => "ml_fact"
  | .none => ""

/-- Tokens whose processing by the first implementation's getopt loop
succeeds silently (no event, no early exit): a recognized operation name
or a parse-accepted integer operand. -/
def silentOk1 : Tok → Bool
  | .o s => (Impl1.parse_op s).isSome
  | .a s => (Impl1.parse_i64 s).isSome
  | .b s => (Impl1.parse_i64 s).isSome
  | .h => false
  | .unknown => false

/-- Context update performed by one silently processed token in the
first implementation's getopt loop. -/
def upd1 (c : Impl1.context) : Tok → Impl1.context
  | .o s =>
    match Impl1.parse_op s with
    | some op => { c with op := op, have_op := true }
    | none => c
  | .a s =>
    match Impl1.parse_i64 s with
    | some v => { c with a := v, have_a := true }
    | none => c
  | .b s =>
    match Impl1.parse_i64 s with
    | some v => { c with b := v, have_b := true }
    | none => c
  | .h => c
  | .unknown => c

/-- Tokens whose processing by the second implementation's getopt loop
succeeds silently. -/
def silentOk2 : Tok → Bool
  | .o s => (Impl2.parse_operation s).isSome
  | .a s => (Impl2.parse_int s).isSome
  | .b s => (Impl2.parse_int s).isSome
  | .h => false
  | .unknown => false

/-- State update performed by one silently processed token in the second
implementation's getopt loop. -/
def upd2 (st : Impl2.state) : Tok → Impl2.state
  | .o s =>
    match Impl2.parse_operation s with
    | some op => { st with op := op, have_op := true }
    | none => st
  | .a s =>
    match Impl2.parse_int s with
    | some v => { st with a := v, have_a := true }
    | none => st
  | .b s =>
    match Impl2.parse_int s with
    | some v => { st with b := v, have_b := true }
    | none => st
  | .h => st
  | .unknown => st

/-- Event classification: arithmetic activity, an engine invocation or a
numeric result line. -/
def Ev.isCompute (e : Ev) : Bool := e.isOut || e.isEngine

/-- Tokens on which the first implementation's getopt loop fails: a flag
among -o, -a, -b whose argument does not parse. -/
def failsTok1 : Tok → Bool
  | .o s => (Impl1.parse_op s).isNone
  | .a s => (Impl1.parse_i64 s).isNone
  | .b s => (Impl1.parse_i64 s).isNone
  | .h => false
  | .unknown => false

/-- Diagnostic printed by the first implementation for a failing flag
occurrence. -/
def errEv1 : Tok → List Ev
  | .o s => [.err ("Error: unknown operation \x27" ++ s ++ "\x27\n")]
  | .a s => [.err ("Error: invalid integer for -a: \x27" ++ s ++ "\x27\n")]
  | .b s => [.err ("Error: invalid integer for -b: \x27" ++ s ++ "\x27\n")]
  | .h => []
  | .unknown => []

/-- Tokens on which the second implementation's getopt loop fails. -/
def failsTok2 : Tok → Bool
  | .o s => (Impl2.parse_operation s).isNone
  | .a s => (Impl2.parse_int s).isNone
  | .b s => (Impl2.parse_int s).isNone
  | .h => false
  | .unknown => false

/-- Diagnostic printed by the second implementation for a failing flag
occurrence (same messages as the first). -/
def errEv2 : Tok → List Ev
  | .o s => [.err ("Error: unknown operation \x27" ++ s ++ "\x27\n")]
  | .a s => [.err ("Error: invalid integer for -a: \x27" ++ s ++ "\x27\n")]
  | .b s => [.err ("Error: invalid integer for -b: \x27" ++ s ++ "\x27\n")]
  | .h => []
  | .unknown => []

/-- Statement of claim C7's acceptance condition as the claim words it:
the operand string is itself a base-10 signed integer (an optional sign
directly followed by digits) with no trailing characters and no range
overflow.  Used to compare the claim against the parse functions. -/
def claim_int_literal (lo hi : Int) (s : String) : Prop :=
  stripSign s.data ≠ []
  ∧ (∀ c ∈ stripSign s.data, c.isDigit = true)
  ∧ lo ≤ signOf s.data * (digitsVal (stripSign s.data) : Int)
  ∧ signOf s.data * (digitsVal (stripSign s.data) : Int) ≤ hi

instance (lo hi : Int) (s : String) : Decidable (claim_int_literal lo hi s) := by
  unfold claim_int_literal
  infer_instance

/-- Acceptance condition of the amended claim C7: after optional leading
whitespace, an optional sign followed by one or more base-10 digits
spans the rest of the string, and the signed value lies in lo..hi. -/
def spec_operand (lo hi : Int) (s : String) : Prop :=
  ∃ w sgn ds : List Char,
    s.data = w ++ sgn ++ ds
    ∧ (∀ c ∈ w, isSpaceC c = true)
    ∧ (sgn = [] ∨ sgn = ['+'] ∨ sgn = ['-'])
    ∧ ds ≠ []
    ∧ (∀ c ∈ ds, c.isDigit = true)
    ∧ lo ≤ (if sgn = ['-'] then -1 else 1) * (digitsVal ds : Int)
    ∧ (if sgn = ['-'] then -1 else 1) * (digitsVal ds : Int) ≤ hi

/-- When check reports ok its event trace is empty. -/
theorem Impl1.check_snd_ok (c : Impl1.context) (prog : String)
    (h : (Impl1.check c prog).2 = .ok) : Impl1.check c prog = ([], .ok) := by
  unfold Impl1.check at h ⊢
  by_cases h1 : (!c.have_op || !c.have_a) = true
  · rw [if_pos h1] at h
    simp at h
  · rw [if_neg h1] at h ⊢
    by_cases h2 : (!Impl1.needs_b c.op && c.have_b) = true
    · rw [if_pos h2] at h
      simp at h
    · rw [if_neg h2] at h ⊢
      by_cases h3 : (Impl1.needs_b c.op && !c.have_b) = true
      · rw [if_pos h3] at h
        simp at h
      · rw [if_neg h3] at h ⊢
        by_cases h4 : c.op = .pow ∧ c.b < 0
        · rw [if_pos h4] at h
          simp at h
        · rw [if_neg h4] at h ⊢
          by_cases h5 : c.op = .fact ∧ c.a < 0
          · rw [if_pos h5] at h
            simp at h
          · rw [if_neg h5]

/-- When check reports ok and the operation is pow, the exponent operand
is nonnegative (the pow domain pre-check passed). -/
theorem Impl1.check_ok_pow (c : Impl1.context) (prog : String)
    (h : (Impl1.check c prog).2 = .ok) (hop : c.op = .pow) : 0 ≤ c.b := by
  unfold Impl1.check at h
  split at h
  · simp at h
  · split at h
    · simp at h
    · split at h
      · simp at h
      · split at h
        · simp at h
        · next hc => exact not_lt.mp fun hb => hc ⟨hop, hb⟩

/-- When check reports ok and the operation is fact, the operand is
nonnegative (the fact domain pre-check passed). -/
theorem Impl1.check_ok_fact (c : Impl1.context) (prog : String)
    (h : (Impl1.check c prog).2 = .ok) (hop : c.op = .fact) : 0 ≤ c.a := by
  unfold Impl1.check at h
  split at h
  · simp at h
  · split at h
    · simp at h
    · split at h
      · simp at h
      · split at h
        · simp at h
        · split at h
          · simp at h
          · next hc => exact not_lt.mp fun ha => hc ⟨hop, ha⟩

/-- Truncating division stays inside the int64 range on every divisor
pair except divide by zero and the INT64_MIN by -1 edge case. -/
theorem tdiv_in_i64_range (a b : Int)
    (ha1 : -(2 ^ 63) ≤ a) (ha2 : a < 2 ^ 63) (hb : b ≠ 0)
    (hne : ¬(a = -(2 ^ 63) ∧ b = -1)) :
    -(2 ^ 63) ≤ Int.tdiv a b ∧ Int.tdiv a b < 2 ^ 63 := by
  have habs : (Int.tdiv a b).natAbs = a.natAbs / b.natAbs := Int.natAbs_tdiv a b
  by_cases hb1 : b.natAbs = 1
  · rcases Int.natAbs_eq_iff.mp hb1 with hb' | hb'
    · norm_num at hb'
      subst hb'
      rw [Int.tdiv_one]
      omega
    · norm_num at hb'
      subst hb'
      have hamin : a ≠ -(2 ^ 63) := fun h => hne ⟨h, rfl⟩
      have htd : Int.tdiv a (-1) = -a := by
        have h1 := Int.tdiv_neg a 1
        rw [Int.tdiv_one] at h1
        exact h1
      rw [htd]
      omega
  · have hb2 : 2 ≤ b.natAbs := by omega
    have h1 : a.natAbs / b.natAbs ≤ a.natAbs / 2 :=
      Nat.div_le_div_left hb2 (by omega)
    have h2 : a.natAbs / 2 ≤ 2 ^ 63 / 2 := Nat.div_le_div_right (by omega)
    have : (Int.tdiv a b).natAbs ≤ 2 ^ 62 := by omega
    omega

/-- C2: for every dividend a and divisor 0, the div operation yields the
division by zero diagnostic on standard error and the math exit code 2,
with no quotient printed, in both implementations, regardless of the
dividend.  (In the first implementation the diagnostic context is the
string calc, in the second it is the operation name div; both carry the
message division by zero.) -/
theorem C2_div_by_zero :
    (∀ a : Int,
        Impl1.runCtx ⟨.div, true, a, true, 0, true⟩ "calc" =
          ([.engine "ml_div", .err "Error: calc: division by zero\n"], .math))
    ∧ (∀ a : Int,
        Impl2.run_operation .div a 0 =
          ([.engine "ml_div", .err "Error: div: division by zero\n"], .math)) := by
  constructor
  · intro a
    rfl
  · intro a
    rfl

/-- C3: a structurally valid pow request with a negative exponent, and a
structurally valid fact request with a negative operand, are rejected
with a domain error diagnostic and the math exit code 2 (distinct from
the usage exit code 1) before any engine function is invoked: the event
trace holds the single stderr line and no engine event, in both
implementations. -/
theorem C3_domain_precheck :
    (∀ (c : Impl1.context) (prog : String),
        c.have_op = true → c.have_a = true → c.have_b = true →
        c.op = .pow → c.b < 0 →
        Impl1.runCtx c prog =
          ([.err "Error: pow: domain error (b must be >= 0)\n"], .math))
    ∧ (∀ (c : Impl1.context) (prog : String),
        c.have_op = true → c.have_a = true → c.have_b = false →
        c.op = .fact → c.a < 0 →
        Impl1.runCtx c prog =
          ([.err "Error: fact: domain error (a must be >= 0)\n"], .math))
    ∧ (∀ a b : Int, b < 0 →
        Impl2.run_operation .pow a b =
          ([.err "Error: pow: domain error (b must be >= 0)\n"], .math))
    ∧ (∀ a b : Int, a < 0 →
        Impl2.run_operation .fact a b =
          ([.err "Error: fact: domain error (a must be >= 0)\n"], .math))
    ∧ exit_code.math ≠ exit_code.usage := by
  refine ⟨?_, ?_, ?_, ?_, by simp⟩
  · rintro ⟨op, hop, a, ha, b, hb⟩ prog h1 h2 h3 hop' hneg
    simp only at h1 h2 h3 hop' hneg
    subst h1 h2 h3 hop'
    simp [Impl1.runCtx, Impl1.check, Impl1.needs_b, hneg]
  · rintro ⟨op, hop, a, ha, b, hb⟩ prog h1 h2 h3 hop' hneg
    simp only at h1 h2 h3 hop' hneg
    subst h1 h2 h3 hop'
    simp [Impl1.runCtx, Impl1.check, Impl1.needs_b, hneg]
  · intro a b hb
    simp [Impl2.run_operation, hb]
  · intro a hb b
    simp [Impl2.run_operation, b]

/-- C3 witness: concrete instances of the four rejection statements. -/
theorem C3_domain_precheck_witness :
    Impl1.runCtx ⟨.pow, true, 2, true, -1, true⟩ "calc" =
      ([.err "Error: pow: domain error (b must be >= 0)\n"], .math)
    ∧ Impl1.runCtx ⟨.fact, true, -3, true, 0, false⟩ "calc" =
      ([.err "Error: fact: domain error (a must be >= 0)\n"], .math)
    ∧ Impl2.run_operation .pow 2 (-1) =
      ([.err "Error: pow: domain error (b must be >= 0)\n"], .math)
    ∧ Impl2.run_operation .fact (-3) 0 =
      ([.err "Error: fact: domain error (a must be >= 0)\n"], .math) :=
  ⟨C3_domain_precheck.1 ⟨.pow, true, 2, true, -1, true⟩ "calc" rfl rfl rfl rfl
      (by decide),
   C3_domain_precheck.2.1 ⟨.fact, true, -3, true, 0, false⟩ "calc" rfl rfl rfl
      rfl (by decide),
   C3_domain_precheck.2.2.1 2 (-1) (by decide),
   C3_domain_precheck.2.2.2.1 (-3) 0 (by decide)⟩

/-- C10: whenever calc invokes the engine pow or fact function, the
unsigned argument produced by the static_cast equals the signed operand
value: check has already rejected the negative exponent and negative
operand cases, and for an operand inside the int64 parse range the cast
is value preserving. -/
theorem C10_cast_preserves_value :
    ∀ (c : Impl1.context) (prog : String),
      (Impl1.check c prog).2 = .ok →
      ((c.op = .pow → -(2 ^ 63) ≤ c.b → c.b < 2 ^ 63 →
          Impl1.calcFn c =
            ([.engine "ml_pow"], .ok, Impl1.ml_pow c.a (Impl1.toU64 c.b))
          ∧ (Impl1.toU64 c.b : Int) = c.b)
        ∧ (c.op = .fact → -(2 ^ 63) ≤ c.a → c.a < 2 ^ 63 →
          Impl1.calcFn c =
            ([.engine "ml_fact"], .ok, Impl1.ml_fact (Impl1.toU64 c.a))
          ∧ (Impl1.toU64 c.a : Int) = c.a)) := by
  intro c prog hck
  constructor
  · intro hop hb1 hb2
    have h0 : 0 ≤ c.b := Impl1.check_ok_pow c prog hck hop
    have hmod : c.b % (2 : Int) ^ 64 = c.b := Int.emod_eq_of_lt h0 (by omega)
    refine ⟨?_, ?_⟩
    · obtain ⟨op, rest⟩ := c
      simp only at hop
      subst hop
      rfl
    · unfold Impl1.toU64
      rw [hmod, Int.toNat_of_nonneg h0]
  · intro hop ha1 ha2
    have h0 : 0 ≤ c.a := Impl1.check_ok_fact c prog hck hop
    have hmod : c.a % (2 : Int) ^ 64 = c.a := Int.emod_eq_of_lt h0 (by omega)
    refine ⟨?_, ?_⟩
    · obtain ⟨op, rest⟩ := c
      simp only at hop
      subst hop
      rfl
    · unfold Impl1.toU64
      rw [hmod, Int.toNat_of_nonneg h0]

/-- C10 witness: a concrete pow request and a concrete fact request on
which the theorem yields the preserved cast values. -/
theorem C10_cast_preserves_value_witness :
    Impl1.calcFn ⟨.pow, true, 2, true, 3, true⟩ =
      ([.engine "ml_pow"], .ok, Impl1.ml_pow 2 (Impl1.toU64 3))
    ∧ (Impl1.toU64 3 : Int) = 3
    ∧ Impl1.calcFn ⟨.fact, true, 5, true, 0, false⟩ =
      ([.engine "ml_fact"], .ok, Impl1.ml_fact (Impl1.toU64 5))
    ∧ (Impl1.toU64 5 : Int) = 5 := by
  have h1 := (C10_cast_preserves_value ⟨.pow, true, 2, true, 3, true⟩ "calc"
    (by decide)).1 rfl (by decide) (by decide)
  have h2 := (C10_cast_preserves_value ⟨.fact, true, 5, true, 0, false⟩ "calc"
    (by decide)).2 rfl (by decide) (by decide)
  exact ⟨h1.1, h1.2, h2.1, h2.2⟩

/-- C1 counterexample: in the second implementation, the add request on
operands 2147483647 and 1, whose true sum 2147483648 exceeds the int32
representable range, exits with code ok (0), not the math error code (2)
the claim requires: run_operation prints the engine result value and
returns ok without examining the error member for add (and likewise sub,
mul, pow, fact). -/
theorem C1_counterexample :
    ¬ Impl2.representable .add (2147483647 + 1)
    ∧ (Impl2.run_operation .add 2147483647 1).2 = .ok
    ∧ exit_code.ok ≠ exit_code.math :=
  ⟨by decide, by decide, by decide⟩

/-- C1 amended: in the first implementation, every structurally valid
request on parse-range operands whose true mathematical result is
outside the engine's representable range produces exactly the overflow
stderr line and the math exit code 2, and no stdout output.  The second
implementation examines the engine error only for div: add, sub and mul
always exit ok, pow exits ok for every nonnegative exponent and fact for
every nonnegative operand, whatever the magnitude of the true result;
div's unrepresentable edge case INT_MIN by -1 does exit 2 but with the
generic unknown math error message rather than an overflow message. -/
theorem C1_overflow_handling :
    (∀ (c : Impl1.context) (prog : String),
        (Impl1.check c prog).2 = .ok → c.op ≠ .none →
        -(2 ^ 63) ≤ c.a → c.a < 2 ^ 63 → -(2 ^ 63) ≤ c.b → c.b < 2 ^ 63 →
        ¬ Impl1.representable c.op (Impl1.mathValue c) →
        Impl1.runCtx c prog =
          ([.engine (Impl1.engineName c.op), .err "Error: calc: overflow\n"],
           .math))
    ∧ (∀ a b : Int, (Impl2.run_operation .add a b).2 = .ok
        ∧ (Impl2.run_operation .sub a b).2 = .ok
        ∧ (Impl2.run_operation .mul a b).2 = .ok)
    ∧ (∀ a b : Int, 0 ≤ b → (Impl2.run_operation .pow a b).2 = .ok)
    ∧ (∀ a b : Int, 0 ≤ a → (Impl2.run_operation .fact a b).2 = .ok)
    ∧ Impl2.run_operation .div (-(2 ^ 31)) (-1) =
        ([.engine "ml_div", .err "Error: div: unknown math error\n"], .math) := by
  refine ⟨?_, ?_, ?_, ?_, by decide⟩
  · intro c prog hck hnone ha1 ha2 hb1 hb2 hnr
    have hceq := Impl1.check_snd_ok c prog hck
    have hpow : c.op = .pow → 0 ≤ c.b := Impl1.check_ok_pow c prog hck
    have hfact : c.op = .fact → 0 ≤ c.a := Impl1.check_ok_fact c prog hck
    obtain ⟨op, hop, a, ha, b, hb⟩ := c
    simp only at hnr hpow hfact ha1 ha2 hb1 hb2 hnone ⊢
    cases op with
    | none => exact absurd rfl hnone
    | add =>
      simp only [Impl1.mathValue, Impl1.representable] at hnr
      have hml : Impl1.ml_add a b = ⟨.overflow, .i64, 0⟩ := by
        unfold Impl1.ml_add
        rw [if_neg hnr]
      simp [Impl1.runCtx, hceq, Impl1.calcFn, hml, Impl1.print_result,
        Impl1.print_math_err, Impl1.engineName]
    | sub =>
      simp only [Impl1.mathValue, Impl1.representable] at hnr
      have hml : Impl1.ml_sub a b = ⟨.overflow, .i64, 0⟩ := by
        unfold Impl1.ml_sub
        rw [if_neg hnr]
      simp [Impl1.runCtx, hceq, Impl1.calcFn, hml, Impl1.print_result,
        Impl1.print_math_err, Impl1.engineName]
    | mul =>
      simp only [Impl1.mathValue, Impl1.representable] at hnr
      have hml : Impl1.ml_mul a b = ⟨.overflow, .i64, 0⟩ := by
        unfold Impl1.ml_mul
        rw [if_neg hnr]
      simp [Impl1.runCtx, hceq, Impl1.calcFn, hml, Impl1.print_result,
        Impl1.print_math_err, Impl1.engineName]
    | div =>
      simp only [Impl1.mathValue, Impl1.representable] at hnr
      by_cases hb0 : b = 0
      · subst hb0
        rw [Int.tdiv_zero] at hnr
        exact absurd (by norm_num) hnr
      · by_cases hmin : a = -(2 ^ 63) ∧ b = -1
        · have hml : Impl1.ml_div a b = ⟨.overflow, .i64, 0⟩ := by
            unfold Impl1.ml_div
            rw [if_neg hb0, if_pos hmin]
          simp [Impl1.runCtx, hceq, Impl1.calcFn, hml, Impl1.print_result,
            Impl1.print_math_err, Impl1.engineName]
        · exact absurd (tdiv_in_i64_range a b ha1 ha2 hb0 hmin) hnr
    | pow =>
      have h0b : 0 ≤ b := hpow rfl
      have hcast : Impl1.toU64 b = b.toNat := by
        unfold Impl1.toU64
        rw [Int.emod_eq_of_lt h0b (by omega)]
      simp only [Impl1.mathValue, Impl1.representable] at hnr
      have hc1 : ¬(0 ≤ a ^ b.toNat ∧ a ^ b.toNat < 2 ^ 64) :=
        fun h => hnr ⟨by omega, h.2⟩
      have hc2 : ¬(-(2 ^ 63) ≤ a ^ b.toNat ∧ a ^ b.toNat < 0) :=
        fun h => hnr ⟨h.1, by omega⟩
      have hml : Impl1.ml_pow a (Impl1.toU64 b) = ⟨.overflow, .i64, 0⟩ := by
        unfold Impl1.ml_pow
        rw [hcast, if_neg hc1, if_neg hc2]
      simp [Impl1.runCtx, hceq, Impl1.calcFn, hml, Impl1.print_result,
        Impl1.print_math_err, Impl1.engineName]
    | fact =>
      have h0a : 0 ≤ a := hfact rfl
      have hcast : Impl1.toU64 a = a.toNat := by
        unfold Impl1.toU64
        rw [Int.emod_eq_of_lt h0a (by omega)]
      simp only [Impl1.mathValue, Impl1.representable] at hnr
      have hge : ¬(Nat.factorial a.toNat < 2 ^ 64) := by
        intro hlt
        exact hnr ⟨by positivity, by exact_mod_cast hlt⟩
      have hml : Impl1.ml_fact (Impl1.toU64 a) = ⟨.overflow, .i64, 0⟩ := by
        unfold Impl1.ml_fact
        rw [hcast, if_neg hge]
      simp [Impl1.runCtx, hceq, Impl1.calcFn, hml, Impl1.print_result,
        Impl1.print_math_err, Impl1.engineName]
  · intro a b
    exact ⟨rfl, rfl, rfl⟩
  · intro a b h0
    simp only [Impl2.run_operation]
    rw [if_neg (by omega : ¬b < 0)]
  · intro a b h0
    simp only [Impl2.run_operation]
    rw [if_neg (by omega : ¬a < 0)]

/-- C1 witness: a concrete overflowing mul request in the first
implementation (2^62 times 4 leaves the int64 range) and a concrete
overflowing pow request in the second (2^40 leaves the int32 range,
exit ok). -/
theorem C1_overflow_handling_witness :
    (Impl1.check ⟨.mul, true, 2 ^ 62, true, 4, true⟩ "calc").2 = .ok
    ∧ ¬ Impl1.representable .mul
        (Impl1.mathValue ⟨.mul, true, 2 ^ 62, true, 4, true⟩)
    ∧ Impl1.runCtx ⟨.mul, true, 2 ^ 62, true, 4, true⟩ "calc" =
        ([.engine "ml_mul", .err "Error: calc: overflow\n"], .math)
    ∧ (Impl2.run_operation .pow 2 40).2 = .ok :=
  ⟨by decide, by decide,
   C1_overflow_handling.1 ⟨.mul, true, 2 ^ 62, true, 4, true⟩ "calc" (by decide)
     (by decide) (by decide) (by decide) (by decide) (by decide) (by decide),
   C1_overflow_handling.2.2.1 2 40 (by decide)⟩

/- Helper infrastructure for reasoning about the getopt loops. -/

/-- A silently processed prefix of the token list folds into the context
and the first implementation's getopt loop continues on the rest. -/
theorem parse1_append_silent (pre : List Tok) (l : List Tok)
    (c : Impl1.context) (prog : String)
    (h : ∀ t ∈ pre, silentOk1 t = true) :
    Impl1.parse c (pre ++ l) prog = Impl1.parse (pre.foldl upd1 c) l prog := by
  induction pre generalizing c with
  | nil => rfl
  | cons t rest ih =>
    have ht := h t (List.mem_cons_self t rest)
    have hrest : ∀ u ∈ rest, silentOk1 u = true :=
      fun u hu => h u (List.mem_cons_of_mem t hu)
    cases t with
    | o s =>
      simp only [silentOk1] at ht
      obtain ⟨op, hsome⟩ := Option.isSome_iff_exists.mp ht
      simp only [List.cons_append, Impl1.parse, hsome, List.foldl_cons, upd1]
      exact ih _ hrest
    | a s =>
      simp only [silentOk1] at ht
      obtain ⟨v, hsome⟩ := Option.isSome_iff_exists.mp ht
      simp only [List.cons_append, Impl1.parse, hsome, List.foldl_cons, upd1]
      exact ih _ hrest
    | b s =>
      simp only [silentOk1] at ht
      obtain ⟨v, hsome⟩ := Option.isSome_iff_exists.mp ht
      simp only [List.cons_append, Impl1.parse, hsome, List.foldl_cons, upd1]
      exact ih _ hrest
    | h => simp [silentOk1] at ht
    | unknown => simp [silentOk1] at ht

/-- A silently processed token list folds into the context and the first
implementation's getopt loop accepts. -/
theorem parse1_silent (l : List Tok) (c : Impl1.context) (prog : String)
    (h : ∀ t ∈ l, silentOk1 t = true) :
    Impl1.parse c l prog = ([], .ok (l.foldl upd1 c)) := by
  have h1 := parse1_append_silent l [] c prog h
  rw [List.append_nil] at h1
  exact h1

/-- A silently processed prefix of the token list folds into the state
and the second implementation's getopt loop continues on the rest. -/
theorem parse2_append_silent (pre : List Tok) (l : List Tok)
    (st : Impl2.state) (prog : String)
    (h : ∀ t ∈ pre, silentOk2 t = true) :
    Impl2.parseLoop st (pre ++ l) prog =
      Impl2.parseLoop (pre.foldl upd2 st) l prog := by
  induction pre generalizing st with
  | nil => rfl
  | cons t rest ih =>
    have ht := h t (List.mem_cons_self t rest)
    have hrest : ∀ u ∈ rest, silentOk2 u = true :=
      fun u hu => h u (List.mem_cons_of_mem t hu)
    cases t with
    | o s =>
      simp only [silentOk2] at ht
      obtain ⟨op, hsome⟩ := Option.isSome_iff_exists.mp ht
      simp only [List.cons_append, Impl2.parseLoop, hsome, List.foldl_cons,
        upd2]
      exact ih _ hrest
    | a s =>
      simp only [silentOk2] at ht
      obtain ⟨v, hsome⟩ := Option.isSome_iff_exists.mp ht
      simp only [List.cons_append, Impl2.parseLoop, hsome, List.foldl_cons,
        upd2]
      exact ih _ hrest
    | b s =>
      simp only [silentOk2] at ht
      obtain ⟨v, hsome⟩ := Option.isSome_iff_exists.mp ht
      simp only [List.cons_append, Impl2.parseLoop, hsome, List.foldl_cons,
        upd2]
      exact ih _ hrest
    | h => simp [silentOk2] at ht
    | unknown => simp [silentOk2] at ht

/-- A silently processed token list folds into the state and the second
implementation's getopt loop accepts. -/
theorem parse2_silent (l : List Tok) (st : Impl2.state) (prog : String)
    (h : ∀ t ∈ l, silentOk2 t = true) :
    Impl2.parseLoop st l prog = ([], .ok (l.foldl upd2 st)) := by
  have h1 := parse2_append_silent l [] st prog h
  rw [List.append_nil] at h1
  exact h1

/-- C4 counterexample: the invocation with tokens -o fact -b 3 passes
flag parsing with operation fact and -b supplied, yet the program
reports the missing-argument diagnostic for the absent -a (missing -o
or -a), not the unexpected-argument (useless -b) failure the claim
requires for every such invocation; the unexpected-argument report is
reached only when -o and -a are both present. -/
theorem C4_counterexample :
    Impl1.run [.o "fact", .b "3"] "calc" =
      ([.err "Error: missing -o or -a\n", .help "calc"], .usage)
    ∧ "Error: missing -o or -a\n" ≠ "Error: useless -b for this op\n" :=
  ⟨by decide, by decide⟩

/-- C4 amended: for every invocation that passes flag parsing and
supplies both -o and -a, supplying -b when the operation is fact yields
the unexpected-argument (useless -b) usage failure, and omitting -b when
the operation requires it (add, sub, mul, div, pow, the needs_b table)
yields the missing-argument (missing -b) usage failure; both print the
usage text, exit with the usage code 1, and are not math failures. -/
theorem C4_arity_failures :
    (∀ (toks : List Tok) (c : Impl1.context) (prog : String),
        Impl1.parse {} toks prog = ([], .ok c) →
        c.have_op = true → c.have_a = true →
        ((c.op = .fact → c.have_b = true →
            Impl1.run toks prog =
              ([.err "Error: useless -b for this op\n", .help prog], .usage))
          ∧ (Impl1.needs_b c.op = true → c.have_b = false →
            Impl1.run toks prog =
              ([.err "Error: missing -b for this op\n", .help prog], .usage))))
    ∧ (∀ (toks : List Tok) (st : Impl2.state) (prog : String),
        Impl2.parseLoop {} toks prog = ([], .ok st) →
        st.have_op = true → st.have_a = true →
        ((st.op = .fact → st.have_b = true →
            Impl2.main toks prog =
              ([.err "Error: useless -b for this operation\n", .help prog],
               .usage))
          ∧ (Impl2.needs_b st.op = true → st.have_b = false →
            Impl2.main toks prog =
              ([.err "Error: missing -b for this operation\n", .help prog],
               .usage))))
    ∧ exit_code.usage ≠ exit_code.math := by
  refine ⟨?_, ?_, by simp⟩
  · intro toks c prog hp h1 h2
    constructor
    · intro hop hb
      simp [Impl1.run, hp, Impl1.runCtx, Impl1.check, h1, h2, hop, hb,
        Impl1.needs_b]
    · intro hneeds hb
      simp [Impl1.run, hp, Impl1.runCtx, Impl1.check, h1, h2, hneeds, hb]
  · intro toks st prog hp h1 h2
    constructor
    · intro hop hb
      simp [Impl2.main, hp, h1, h2, hop, hb, Impl2.needs_b]
    · intro hneeds hb
      simp [Impl2.main, hp, h1, h2, hneeds, hb]

/-- C4 witness: concrete invocations exercising all four amended
branches. -/
theorem C4_arity_failures_witness :
    Impl1.run [.o "fact", .a "1", .b "2"] "calc" =
      ([.err "Error: useless -b for this op\n", .help "calc"], .usage)
    ∧ Impl1.run [.o "add", .a "1"] "calc" =
      ([.err "Error: missing -b for this op\n", .help "calc"], .usage)
    ∧ Impl2.main [.o "fact", .a "1", .b "2"] "calc" =
      ([.err "Error: useless -b for this operation\n", .help "calc"], .usage)
    ∧ Impl2.main [.o "add", .a "1"] "calc" =
      ([.err "Error: missing -b for this operation\n", .help "calc"], .usage) :=
  ⟨(C4_arity_failures.1 [.o "fact", .a "1", .b "2"]
      ⟨.fact, true, 1, true, 2, true⟩ "calc" rfl rfl rfl).1 rfl rfl,
   (C4_arity_failures.1 [.o "add", .a "1"]
      ⟨.add, true, 1, true, 0, false⟩ "calc" rfl rfl rfl).2 rfl rfl,
   (C4_arity_failures.2.1 [.o "fact", .a "1", .b "2"]
      ⟨.fact, true, 1, true, 2, true⟩ "calc" rfl rfl rfl).1 rfl rfl,
   (C4_arity_failures.2.1 [.o "add", .a "1"]
      ⟨.add, true, 1, true, 0, false⟩ "calc" rfl rfl rfl).2 rfl rfl⟩

/-- C5 counterexample: on the invocation holding only the help flag, the
first implementation prints the usage text but exits with the usage code
1, not the success code 0 the claim requires (the two implementations
disagree here; the second does exit 0). -/
theorem C5_counterexample :
    Impl1.run [.h] "calc" = ([.help "calc"], .usage)
    ∧ exit_code.usage ≠ exit_code.ok :=
  ⟨by decide, by decide⟩

/-- C5 amended: when the help flag is reached in the getopt loop (every
earlier flag occurrence parsed silently), both implementations print the
usage text and stop at once, skipping the later flags, the presence and
arity checks, the domain checks and all arithmetic; the first
implementation then exits with the usage code 1, the second with the
success code 0. -/
theorem C5_help_short_circuit :
    (∀ (pre post : List Tok) (prog : String),
        (∀ t ∈ pre, silentOk1 t = true) →
        Impl1.run (pre ++ Tok.h :: post) prog = ([.help prog], .usage))
    ∧ (∀ (pre post : List Tok) (prog : String),
        (∀ t ∈ pre, silentOk2 t = true) →
        Impl2.main (pre ++ Tok.h :: post) prog = ([.help prog], .ok)) := by
  constructor
  · intro pre post prog h
    have hp : Impl1.parse {} (pre ++ Tok.h :: post) prog =
        ([.help prog], .error .usage) := by
      rw [parse1_append_silent pre (Tok.h :: post) {} prog h]
      rfl
    simp [Impl1.run, hp]
  · intro pre post prog h
    have hp : Impl2.parseLoop {} (pre ++ Tok.h :: post) prog =
        ([.help prog], .error .ok) := by
      rw [parse2_append_silent pre (Tok.h :: post) {} prog h]
      rfl
    simp [Impl2.main, hp]

/-- C5 witness: the help flag placed between two well-formed flag
occurrences short-circuits both implementations. -/
theorem C5_help_short_circuit_witness :
    Impl1.run [.o "add", .h, .a "2"] "calc" = ([.help "calc"], .usage)
    ∧ Impl2.main [.o "add", .h, .a "2"] "calc" = ([.help "calc"], .ok) :=
  ⟨C5_help_short_circuit.1 [.o "add"] [.a "2"] "calc" (by decide),
   C5_help_short_circuit.2 [.o "add"] [.a "2"] "calc" (by decide)⟩

/-- The first implementation's getopt loop performs no arithmetic and
prints no result line, whatever its outcome. -/
theorem parse1_no_compute (l : List Tok) (c : Impl1.context) (prog : String) :
    (Impl1.parse c l prog).1.filter Ev.isCompute = [] := by
  induction l generalizing c with
  | nil => rfl
  | cons t rest ih =>
    cases t with
    | o s =>
      cases hs : Impl1.parse_op s with
      | some op =>
        simp only [Impl1.parse, hs]
        exact ih _
      | none => simp [Impl1.parse, hs, Ev.isCompute, Ev.isOut, Ev.isEngine]
    | a s =>
      cases hs : Impl1.parse_i64 s with
      | some v =>
        simp only [Impl1.parse, hs]
        exact ih _
      | none => simp [Impl1.parse, hs, Ev.isCompute, Ev.isOut, Ev.isEngine]
    | b s =>
      cases hs : Impl1.parse_i64 s with
      | some v =>
        simp only [Impl1.parse, hs]
        exact ih _
      | none => simp [Impl1.parse, hs, Ev.isCompute, Ev.isOut, Ev.isEngine]
    | h => rfl
    | unknown => rfl

/-- When the first implementation's getopt loop accepts, it has printed
nothing. -/
theorem parse1_ok_nil (l : List Tok) (c : Impl1.context) (prog : String)
    (tr : List Ev) (c' : Impl1.context)
    (h : Impl1.parse c l prog = (tr, .ok c')) : tr = [] := by
  induction l generalizing c with
  | nil =>
    simp only [Impl1.parse] at h
    cases h
    rfl
  | cons t rest ih =>
    cases t with
    | o s =>
      cases hs : Impl1.parse_op s with
      | some op =>
        simp only [Impl1.parse, hs] at h
        exact ih _ h
      | none =>
        simp only [Impl1.parse, hs] at h
        simp at h
    | a s =>
      cases hs : Impl1.parse_i64 s with
      | some v =>
        simp only [Impl1.parse, hs] at h
        exact ih _ h
      | none =>
        simp only [Impl1.parse, hs] at h
        simp at h
    | b s =>
      cases hs : Impl1.parse_i64 s with
      | some v =>
        simp only [Impl1.parse, hs] at h
        exact ih _ h
      | none =>
        simp only [Impl1.parse, hs] at h
        simp at h
    | h =>
      simp only [Impl1.parse] at h
      simp at h
    | unknown =>
      simp only [Impl1.parse] at h
      simp at h

/-- The second implementation's getopt loop performs no arithmetic and
prints no result line, whatever its outcome. -/
theorem parse2_no_compute (l : List Tok) (st : Impl2.state) (prog : String) :
    (Impl2.parseLoop st l prog).1.filter Ev.isCompute = [] := by
  induction l generalizing st with
  | nil => rfl
  | cons t rest ih =>
    cases t with
    | o s =>
      cases hs : Impl2.parse_operation s with
      | some op =>
        simp only [Impl2.parseLoop, hs]
        exact ih _
      | none => simp [Impl2.parseLoop, hs, Ev.isCompute, Ev.isOut, Ev.isEngine]
    | a s =>
      cases hs : Impl2.parse_int s with
      | some v =>
        simp only [Impl2.parseLoop, hs]
        exact ih _
      | none => simp [Impl2.parseLoop, hs, Ev.isCompute, Ev.isOut, Ev.isEngine]
    | b s =>
      cases hs : Impl2.parse_int s with
      | some v =>
        simp only [Impl2.parseLoop, hs]
        exact ih _
      | none => simp [Impl2.parseLoop, hs, Ev.isCompute, Ev.isOut, Ev.isEngine]
    | h => rfl
    | unknown => rfl

/-- When the second implementation's getopt loop accepts, it has printed
nothing. -/
theorem parse2_ok_nil (l : List Tok) (st : Impl2.state) (prog : String)
    (tr : List Ev) (st' : Impl2.state)
    (h : Impl2.parseLoop st l prog = (tr, .ok st')) : tr = [] := by
  induction l generalizing st with
  | nil =>
    simp only [Impl2.parseLoop] at h
    cases h
    rfl
  | cons t rest ih =>
    cases t with
    | o s =>
      cases hs : Impl2.parse_operation s with
      | some op =>
        simp only [Impl2.parseLoop, hs] at h
        exact ih _ h
      | none =>
        simp only [Impl2.parseLoop, hs] at h
        simp at h
    | a s =>
      cases hs : Impl2.parse_int s with
      | some v =>
        simp only [Impl2.parseLoop, hs] at h
        exact ih _ h
      | none =>
        simp only [Impl2.parseLoop, hs] at h
        simp at h
    | b s =>
      cases hs : Impl2.parse_int s with
      | some v =>
        simp only [Impl2.parseLoop, hs] at h
        exact ih _ h
      | none =>
        simp only [Impl2.parseLoop, hs] at h
        simp at h
    | h =>
      simp only [Impl2.parseLoop] at h
      simp at h
    | unknown =>
      simp only [Impl2.parseLoop] at h
      simp at h

/-- Check performs no arithmetic and prints no result line. -/
theorem check1_no_compute (c : Impl1.context) (prog : String) :
    (Impl1.check c prog).1.filter Ev.isCompute = [] := by
  unfold Impl1.check
  repeat' split
  all_goals rfl

/-- When calc reports the usage exit code (the operation::none branch)
it has invoked no engine function and printed no result line. -/
theorem calc1_usage_no_compute (c : Impl1.context)
    (h : (Impl1.calcFn c).2.1 = .usage) :
    (Impl1.calcFn c).1.filter Ev.isCompute = [] := by
  obtain ⟨op, hop, a, ha, b, hb⟩ := c
  cases op <;> simp_all [Impl1.calcFn, Ev.isCompute, Ev.isOut, Ev.isEngine]

/-- print_result never reports the usage exit code. -/
theorem print_result_not_usage (r : Impl1.ml_result) :
    (Impl1.print_result r).2 ≠ .usage := by
  unfold Impl1.print_result Impl1.print_math_err
  repeat' split
  all_goals simp

/-- print_math_error always reports the math exit code. -/
theorem print_math_error_snd (n : String) (e : ml_error) :
    (Impl2.print_math_error n e).2 = .math := by
  unfold Impl2.print_math_error
  split
  · rfl
  · rfl

/-- When run_operation reports the usage exit code (the operation::none
branch) it has invoked no engine function and printed no result line. -/
theorem run_op_usage_no_compute (op : operation) (a b : Int)
    (h : (Impl2.run_operation op a b).2 = .usage) :
    (Impl2.run_operation op a b).1.filter Ev.isCompute = [] := by
  cases op with
  | none => rfl
  | add => simp [Impl2.run_operation] at h
  | sub => simp [Impl2.run_operation] at h
  | mul => simp [Impl2.run_operation] at h
  | div =>
    simp only [Impl2.run_operation] at h
    rcases hpm : Impl2.print_math_error "div" (Impl2.ml_div a b).error
      with ⟨tr, rc⟩
    have hm : rc = .math := by
      have := print_math_error_snd "div" (Impl2.ml_div a b).error
      rw [hpm] at this
      exact this
    split at h
    · rw [hpm] at h
      simp only at h
      rw [hm] at h
      simp at h
    · simp at h
  | pow =>
    simp only [Impl2.run_operation] at h
    split at h
    · simp at h
    · simp at h
  | fact =>
    simp only [Impl2.run_operation] at h
    split at h
    · simp at h
    · simp at h

/-- When the post-parse stage of the first implementation reports the
usage exit code, its trace holds no engine invocation and no result
line. -/
theorem runCtx_usage_no_compute (c : Impl1.context) (prog : String)
    (h : (Impl1.runCtx c prog).2 = .usage) :
    (Impl1.runCtx c prog).1.filter Ev.isCompute = [] := by
  unfold Impl1.runCtx at h ⊢
  simp only [] at h ⊢
  by_cases h1 : (Impl1.check c prog).2 = .ok
  · rw [if_neg (by simp [h1])] at h ⊢
    by_cases h2 : (Impl1.calcFn c).2.1 = .ok
    · rw [if_neg (by simp [h2])] at h ⊢
      simp only [] at h
      exact absurd h (print_result_not_usage _)
    · rw [if_pos h2] at h ⊢
      simp only [] at h
      rw [List.filter_append, check1_no_compute c prog,
        calc1_usage_no_compute c h]
      rfl
  · rw [if_pos h1] at h ⊢
    simp only [] at h ⊢
    exact check1_no_compute c prog

/-- C8 counterexample: the invocation -o add -a 2 ends with the usage
exit code 1 because -b is missing, yet standard output is not empty: the
usage text is printed there (the help function writes with std printf),
contradicting the claim that nothing is printed to standard output on a
usage failure. -/
theorem C8_counterexample :
    Impl1.run [.o "add", .a "2"] "calc" =
      ([.err "Error: missing -b for this op\n", .help "calc"], .usage)
    ∧ Ev.isStdout (.help "calc") = true :=
  ⟨by decide, rfl⟩

/-- C8 amended: every invocation of either implementation that ends with
the usage exit code 1 has invoked no arithmetic engine function and has
printed no numeric result line to standard output (the usage text may
have been printed there); usage validation reports its failure before
any arithmetic executes. -/
theorem C8_usage_before_arithmetic :
    (∀ (toks : List Tok) (prog : String),
        (Impl1.run toks prog).2 = .usage →
        (Impl1.run toks prog).1.filter Ev.isCompute = [])
    ∧ (∀ (toks : List Tok) (prog : String),
        (Impl2.main toks prog).2 = .usage →
        (Impl2.main toks prog).1.filter Ev.isCompute = []) := by
  constructor
  · intro toks prog h
    unfold Impl1.run at h ⊢
    rcases hp : Impl1.parse {} toks prog with ⟨tr, exc⟩
    rw [hp] at h
    cases exc with
    | error rc =>
      simp only [] at h ⊢
      have h0 := parse1_no_compute toks {} prog
      rw [hp] at h0
      exact h0
    | ok c =>
      simp only [] at h ⊢
      have htr : tr = [] := parse1_ok_nil toks {} prog tr c hp
      subst htr
      simp only [List.nil_append] at h ⊢
      exact runCtx_usage_no_compute c prog h
  · intro toks prog h
    unfold Impl2.main at h ⊢
    rcases hp : Impl2.parseLoop {} toks prog with ⟨tr, exc⟩
    rw [hp] at h
    cases exc with
    | error rc =>
      simp only [] at h ⊢
      have h0 := parse2_no_compute toks {} prog
      rw [hp] at h0
      exact h0
    | ok st =>
      simp only [] at h ⊢
      have htr : tr = [] := parse2_ok_nil toks {} prog tr st hp
      subst htr
      by_cases h1 : (!st.have_op || !st.have_a) = true
      · rw [if_pos h1]
        rfl
      · rw [if_neg h1] at h ⊢
        by_cases h2 : (!Impl2.needs_b st.op && st.have_b) = true
        · rw [if_pos h2]
          rfl
        · rw [if_neg h2] at h ⊢
          by_cases h3 : (Impl2.needs_b st.op && !st.have_b) = true
          · rw [if_pos h3]
            rfl
          · rw [if_neg h3] at h ⊢
            by_cases h4 : st.op = .pow ∧ st.b < 0
            · rw [if_pos h4] at h
              simp at h
            · rw [if_neg h4] at h ⊢
              simp only [List.nil_append] at h ⊢
              exact run_op_usage_no_compute st.op st.a st.b h

/-- C8 witness: an invocation with an unrecognized flag exits with the
usage code and a trace free of engine and result events. -/
theorem C8_usage_before_arithmetic_witness :
    (Impl1.run [.unknown] "calc").2 = .usage
    ∧ (Impl1.run [.unknown] "calc").1.filter Ev.isCompute = []
    ∧ (Impl2.main [.unknown] "calc").2 = .usage
    ∧ (Impl2.main [.unknown] "calc").1.filter Ev.isCompute = [] :=
  ⟨by decide, C8_usage_before_arithmetic.1 [.unknown] "calc" (by decide),
   by decide, C8_usage_before_arithmetic.2 [.unknown] "calc" (by decide)⟩

/-- Folding tokens with no -a occurrence leaves the a slot unchanged. -/
theorem foldl_upd1_no_a :
    ∀ (l : List Tok) (c : Impl1.context), (∀ s, Tok.a s ∉ l) →
      (l.foldl upd1 c).a = c.a
      ∧ (l.foldl upd1 c).have_a = c.have_a := by
  intro l
  induction l with
  | nil => exact fun c _ => ⟨rfl, rfl⟩
  | cons t rest ih =>
    intro c h
    have hrest : ∀ s, Tok.a s ∉ rest :=
      fun s hs => h s (List.mem_cons_of_mem t hs)
    have hupd : (upd1 c t).a = c.a
        ∧ (upd1 c t).have_a = c.have_a := by
      cases t with
      | a s => exact absurd (List.mem_cons_self _ _) (h s)
      | o s =>
        cases hs : Impl1.parse_op s <;> simp [upd1, hs]
      | b s =>
        cases hs : Impl1.parse_i64 s <;> simp [upd1, hs]
      | h => exact ⟨rfl, rfl⟩
      | unknown => exact ⟨rfl, rfl⟩
    rw [List.foldl_cons]
    obtain ⟨ih1, ih2⟩ := ih (upd1 c t) hrest
    exact ⟨ih1.trans hupd.1, ih2.trans hupd.2⟩

/-- Folding tokens with no -b occurrence leaves the b slot unchanged. -/
theorem foldl_upd1_no_b :
    ∀ (l : List Tok) (c : Impl1.context), (∀ s, Tok.b s ∉ l) →
      (l.foldl upd1 c).b = c.b
      ∧ (l.foldl upd1 c).have_b = c.have_b := by
  intro l
  induction l with
  | nil => exact fun c _ => ⟨rfl, rfl⟩
  | cons t rest ih =>
    intro c h
    have hrest : ∀ s, Tok.b s ∉ rest :=
      fun s hs => h s (List.mem_cons_of_mem t hs)
    have hupd : (upd1 c t).b = c.b
        ∧ (upd1 c t).have_b = c.have_b := by
      cases t with
      | b s => exact absurd (List.mem_cons_self _ _) (h s)
      | o s =>
        cases hs : Impl1.parse_op s <;> simp [upd1, hs]
      | a s =>
        cases hs : Impl1.parse_i64 s <;> simp [upd1, hs]
      | h => exact ⟨rfl, rfl⟩
      | unknown => exact ⟨rfl, rfl⟩
    rw [List.foldl_cons]
    obtain ⟨ih1, ih2⟩ := ih (upd1 c t) hrest
    exact ⟨ih1.trans hupd.1, ih2.trans hupd.2⟩

/-- Folding tokens with no -o occurrence leaves the op slot unchanged. -/
theorem foldl_upd1_no_o :
    ∀ (l : List Tok) (c : Impl1.context), (∀ s, Tok.o s ∉ l) →
      (l.foldl upd1 c).op = c.op
      ∧ (l.foldl upd1 c).have_op = c.have_op := by
  intro l
  induction l with
  | nil => exact fun c _ => ⟨rfl, rfl⟩
  | cons t rest ih =>
    intro c h
    have hrest : ∀ s, Tok.o s ∉ rest :=
      fun s hs => h s (List.mem_cons_of_mem t hs)
    have hupd : (upd1 c t).op = c.op
        ∧ (upd1 c t).have_op = c.have_op := by
      cases t with
      | o s => exact absurd (List.mem_cons_self _ _) (h s)
      | a s =>
        cases hs : Impl1.parse_i64 s <;> simp [upd1, hs]
      | b s =>
        cases hs : Impl1.parse_i64 s <;> simp [upd1, hs]
      | h => exact ⟨rfl, rfl⟩
      | unknown => exact ⟨rfl, rfl⟩
    rw [List.foldl_cons]
    obtain ⟨ih1, ih2⟩ := ih (upd1 c t) hrest
    exact ⟨ih1.trans hupd.1, ih2.trans hupd.2⟩

/-- Folding tokens with no -a occurrence leaves the a slot unchanged (second implementation). -/
theorem foldl_upd2_no_a :
    ∀ (l : List Tok) (st : Impl2.state), (∀ s, Tok.a s ∉ l) →
      (l.foldl upd2 st).a = st.a
      ∧ (l.foldl upd2 st).have_a = st.have_a := by
  intro l
  induction l with
  | nil => exact fun st _ => ⟨rfl, rfl⟩
  | cons t rest ih =>
    intro st h
    have hrest : ∀ s, Tok.a s ∉ rest :=
      fun s hs => h s (List.mem_cons_of_mem t hs)
    have hupd : (upd2 st t).a = st.a
        ∧ (upd2 st t).have_a = st.have_a := by
      cases t with
      | a s => exact absurd (List.mem_cons_self _ _) (h s)
      | o s =>
        cases hs : Impl2.parse_operation s <;> simp [upd2, hs]
      | b s =>
        cases hs : Impl2.parse_int s <;> simp [upd2, hs]
      | h => exact ⟨rfl, rfl⟩
      | unknown => exact ⟨rfl, rfl⟩
    rw [List.foldl_cons]
    obtain ⟨ih1, ih2⟩ := ih (upd2 st t) hrest
    exact ⟨ih1.trans hupd.1, ih2.trans hupd.2⟩

/-- Folding tokens with no -b occurrence leaves the b slot unchanged (second implementation). -/
theorem foldl_upd2_no_b :
    ∀ (l : List Tok) (st : Impl2.state), (∀ s, Tok.b s ∉ l) →
      (l.foldl upd2 st).b = st.b
      ∧ (l.foldl upd2 st).have_b = st.have_b := by
  intro l
  induction l with
  | nil => exact fun st _ => ⟨rfl, rfl⟩
  | cons t rest ih =>
    intro st h
    have hrest : ∀ s, Tok.b s ∉ rest :=
      fun s hs => h s (List.mem_cons_of_mem t hs)
    have hupd : (upd2 st t).b = st.b
        ∧ (upd2 st t).have_b = st.have_b := by
      cases t with
      | b s => exact absurd (List.mem_cons_self _ _) (h s)
      | o s =>
        cases hs : Impl2.parse_operation s <;> simp [upd2, hs]
      | a s =>
        cases hs : Impl2.parse_int s <;> simp [upd2, hs]
      | h => exact ⟨rfl, rfl⟩
      | unknown => exact ⟨rfl, rfl⟩
    rw [List.foldl_cons]
    obtain ⟨ih1, ih2⟩ := ih (upd2 st t) hrest
    exact ⟨ih1.trans hupd.1, ih2.trans hupd.2⟩

/-- Folding tokens with no -o occurrence leaves the op slot unchanged (second implementation). -/
theorem foldl_upd2_no_o :
    ∀ (l : List Tok) (st : Impl2.state), (∀ s, Tok.o s ∉ l) →
      (l.foldl upd2 st).op = st.op
      ∧ (l.foldl upd2 st).have_op = st.have_op := by
  intro l
  induction l with
  | nil => exact fun st _ => ⟨rfl, rfl⟩
  | cons t rest ih =>
    intro st h
    have hrest : ∀ s, Tok.o s ∉ rest :=
      fun s hs => h s (List.mem_cons_of_mem t hs)
    have hupd : (upd2 st t).op = st.op
        ∧ (upd2 st t).have_op = st.have_op := by
      cases t with
      | o s => exact absurd (List.mem_cons_self _ _) (h s)
      | a s =>
        cases hs : Impl2.parse_int s <;> simp [upd2, hs]
      | b s =>
        cases hs : Impl2.parse_int s <;> simp [upd2, hs]
      | h => exact ⟨rfl, rfl⟩
      | unknown => exact ⟨rfl, rfl⟩
    rw [List.foldl_cons]
    obtain ⟨ih1, ih2⟩ := ih (upd2 st t) hrest
    exact ⟨ih1.trans hupd.1, ih2.trans hupd.2⟩

/-- C9: in both getopt loops, when every occurrence of -o, -a, -b parses
successfully, each occurrence overwrites the stored slot, so the last
occurrence determines the value used (stated for the last occurrence of
each flag, with the remaining tail free of that flag); and the first
occurrence that fails to parse aborts the loop at once with its
diagnostic and the usage exit code, whatever tokens follow. -/
theorem C9_flag_repetition :
    (∀ (l1 l2 : List Tok) (c : Impl1.context) (prog : String),
        (∀ t ∈ l1, silentOk1 t = true) → (∀ t ∈ l2, silentOk1 t = true) →
        ((∀ (s : String) (v : Int), Impl1.parse_i64 s = some v →
            (∀ u, Tok.a u ∉ l2) →
            (Impl1.parse c (l1 ++ Tok.a s :: l2) prog).2.toOption.map
              Impl1.context.a = some v)
          ∧ (∀ (s : String) (v : Int), Impl1.parse_i64 s = some v →
            (∀ u, Tok.b u ∉ l2) →
            (Impl1.parse c (l1 ++ Tok.b s :: l2) prog).2.toOption.map
              Impl1.context.b = some v)
          ∧ (∀ (s : String) (op : operation), Impl1.parse_op s = some op →
            (∀ u, Tok.o u ∉ l2) →
            (Impl1.parse c (l1 ++ Tok.o s :: l2) prog).2.toOption.map
              Impl1.context.op = some op)))
    ∧ (∀ (l1 : List Tok) (t : Tok) (l2 : List Tok) (c : Impl1.context)
          (prog : String),
        (∀ u ∈ l1, silentOk1 u = true) → failsTok1 t = true →
        Impl1.parse c (l1 ++ t :: l2) prog = (errEv1 t, .error .usage))
    ∧ (∀ (l1 l2 : List Tok) (st : Impl2.state) (prog : String),
        (∀ t ∈ l1, silentOk2 t = true) → (∀ t ∈ l2, silentOk2 t = true) →
        ((∀ (s : String) (v : Int), Impl2.parse_int s = some v →
            (∀ u, Tok.a u ∉ l2) →
            (Impl2.parseLoop st (l1 ++ Tok.a s :: l2) prog).2.toOption.map
              Impl2.state.a = some v)
          ∧ (∀ (s : String) (v : Int), Impl2.parse_int s = some v →
            (∀ u, Tok.b u ∉ l2) →
            (Impl2.parseLoop st (l1 ++ Tok.b s :: l2) prog).2.toOption.map
              Impl2.state.b = some v)
          ∧ (∀ (s : String) (op : operation), Impl2.parse_operation s = some op →
            (∀ u, Tok.o u ∉ l2) →
            (Impl2.parseLoop st (l1 ++ Tok.o s :: l2) prog).2.toOption.map
              Impl2.state.op = some op)))
    ∧ (∀ (l1 : List Tok) (t : Tok) (l2 : List Tok) (st : Impl2.state)
          (prog : String),
        (∀ u ∈ l1, silentOk2 u = true) → failsTok2 t = true →
        Impl2.parseLoop st (l1 ++ t :: l2) prog = (errEv2 t, .error .usage)) := by
  refine ⟨?_, ?_, ?_, ?_⟩
  · intro l1 l2 c prog h1 h2
    refine ⟨?_, ?_, ?_⟩
    · intro s v hv hno
      rw [parse1_append_silent l1 (Tok.a s :: l2) c prog h1]
      simp only [Impl1.parse, hv]
      rw [parse1_silent l2 _ prog h2]
      simp only [Except.toOption, Option.map]
      rw [(foldl_upd1_no_a l2 _ hno).1]
    · intro s v hv hno
      rw [parse1_append_silent l1 (Tok.b s :: l2) c prog h1]
      simp only [Impl1.parse, hv]
      rw [parse1_silent l2 _ prog h2]
      simp only [Except.toOption, Option.map]
      rw [(foldl_upd1_no_b l2 _ hno).1]
    · intro s op hv hno
      rw [parse1_append_silent l1 (Tok.o s :: l2) c prog h1]
      simp only [Impl1.parse, hv]
      rw [parse1_silent l2 _ prog h2]
      simp only [Except.toOption, Option.map]
      rw [(foldl_upd1_no_o l2 _ hno).1]
  · intro l1 t l2 c prog h1 hf
    rw [parse1_append_silent l1 (t :: l2) c prog h1]
    cases t with
    | o s =>
      simp only [failsTok1] at hf
      have hn : Impl1.parse_op s = none := Option.isNone_iff_eq_none.mp hf
      simp [Impl1.parse, hn, errEv1]
    | a s =>
      simp only [failsTok1] at hf
      have hn : Impl1.parse_i64 s = none := Option.isNone_iff_eq_none.mp hf
      simp [Impl1.parse, hn, errEv1]
    | b s =>
      simp only [failsTok1] at hf
      have hn : Impl1.parse_i64 s = none := Option.isNone_iff_eq_none.mp hf
      simp [Impl1.parse, hn, errEv1]
    | h => simp [failsTok1] at hf
    | unknown => simp [failsTok1] at hf
  · intro l1 l2 st prog h1 h2
    refine ⟨?_, ?_, ?_⟩
    · intro s v hv hno
      rw [parse2_append_silent l1 (Tok.a s :: l2) st prog h1]
      simp only [Impl2.parseLoop, hv]
      rw [parse2_silent l2 _ prog h2]
      simp only [Except.toOption, Option.map]
      rw [(foldl_upd2_no_a l2 _ hno).1]
    · intro s v hv hno
      rw [parse2_append_silent l1 (Tok.b s :: l2) st prog h1]
      simp only [Impl2.parseLoop, hv]
      rw [parse2_silent l2 _ prog h2]
      simp only [Except.toOption, Option.map]
      rw [(foldl_upd2_no_b l2 _ hno).1]
    · intro s op hv hno
      rw [parse2_append_silent l1 (Tok.o s :: l2) st prog h1]
      simp only [Impl2.parseLoop, hv]
      rw [parse2_silent l2 _ prog h2]
      simp only [Except.toOption, Option.map]
      rw [(foldl_upd2_no_o l2 _ hno).1]
  · intro l1 t l2 st prog h1 hf
    rw [parse2_append_silent l1 (t :: l2) st prog h1]
    cases t with
    | o s =>
      simp only [failsTok2] at hf
      have hn : Impl2.parse_operation s = none := Option.isNone_iff_eq_none.mp hf
      simp [Impl2.parseLoop, hn, errEv2]
    | a s =>
      simp only [failsTok2] at hf
      have hn : Impl2.parse_int s = none := Option.isNone_iff_eq_none.mp hf
      simp [Impl2.parseLoop, hn, errEv2]
    | b s =>
      simp only [failsTok2] at hf
      have hn : Impl2.parse_int s = none := Option.isNone_iff_eq_none.mp hf
      simp [Impl2.parseLoop, hn, errEv2]
    | h => simp [failsTok2] at hf
    | unknown => simp [failsTok2] at hf

/-- C9 witness: with -a given twice the second value wins, and a failing
-o aborts at once even though a well-formed -a follows. -/
theorem C9_flag_repetition_witness :
    (Impl1.parse {} [.a "1", .a "2", .b "3"] "calc").2.toOption.map
        Impl1.context.a = some 2
    ∧ Impl1.parse {} [.o "xor", .a "5"] "calc" =
        ([.err "Error: unknown operation \x27xor\x27\n"], .error .usage)
    ∧ (Impl2.parseLoop {} [.a "1", .a "2", .b "3"] "calc").2.toOption.map
        Impl2.state.a = some 2
    ∧ Impl2.parseLoop {} [.o "xor", .a "5"] "calc" =
        ([.err "Error: unknown operation \x27xor\x27\n"], .error .usage) :=
  ⟨(C9_flag_repetition.1 [.a "1"] [.b "3"] {} "calc" (by decide) (by decide)).1
      "2" 2 (by decide) (by intro u hu; simp at hu),
   C9_flag_repetition.2.1 [] (.o "xor") [.a "5"] {} "calc"
      (by intro u hu; simp at hu) (by decide),
   (C9_flag_repetition.2.2.1 [.a "1"] [.b "3"] {} "calc" (by decide)
      (by decide)).1 "2" 2 (by decide) (by intro u hu; simp at hu),
   C9_flag_repetition.2.2.2 [] (.o "xor") [.a "5"] {} "calc"
      (by intro u hu; simp at hu) (by decide)⟩

/-- The whitespace characters recognized by the parse model are not
digits. -/
theorem space_not_digit (c : Char) (h : isSpaceC c = true) :
    c.isDigit = false := by
  unfold isSpaceC at h
  simp only [Bool.or_eq_true, decide_eq_true_eq] at h
  rcases h with ((((h | h) | h) | h) | h) | h <;> subst h <;> decide

/-- Digits are not whitespace. -/
theorem digit_not_space (c : Char) (h : c.isDigit = true) :
    isSpaceC c = false := by
  cases hbc : isSpaceC c
  · rfl
  · rw [space_not_digit c hbc] at h
    cases h

/-- Dropping whitespace runs over an all-whitespace prefix. -/
theorem dropWhile_append_all {α : Type} (p : α → Bool) :
    ∀ (w r : List α), (∀ c ∈ w, p c = true) →
      List.dropWhile p (w ++ r) = List.dropWhile p r := by
  intro w
  induction w with
  | nil => exact fun r _ => rfl
  | cons a t ih =>
    intro r h
    rw [List.cons_append, List.dropWhile_cons,
      if_pos (h a (List.mem_cons_self a t))]
    exact ih r fun c hc => h c (List.mem_cons_of_mem a hc)

/-- A list whose head does not satisfy the predicate is unchanged by
dropWhile. -/
theorem dropWhile_head_neg {α : Type} (p : α → Bool) (a : α) (l : List α)
    (h : p a = false) : List.dropWhile p (a :: l) = a :: l := by
  rw [List.dropWhile_cons, if_neg (by simp [h])]

/-- takeWhile keeps and dropWhile empties a list all of whose members
satisfy the predicate. -/
theorem takeWhile_all {α : Type} (p : α → Bool) :
    ∀ l : List α, (∀ c ∈ l, p c = true) →
      List.takeWhile p l = l ∧ List.dropWhile p l = [] := by
  intro l
  induction l with
  | nil => exact fun _ => ⟨rfl, rfl⟩
  | cons a t ih =>
    intro h
    have ha := h a (List.mem_cons_self a t)
    obtain ⟨h1, h2⟩ := ih fun c hc => h c (List.mem_cons_of_mem a hc)
    rw [List.takeWhile_cons, List.dropWhile_cons, if_pos ha, if_pos ha, h1]
    exact ⟨rfl, h2⟩

/-- The parse model accepts exactly the strings of the amended grammar:
optional whitespace, an optional sign, a nonempty digit run spanning the
rest of the string, and a value inside lo..hi. -/
theorem strtolModel_isSome_iff (lo hi : Int) (s : String) :
    (strtolModel lo hi s).isSome = true ↔ spec_operand lo hi s := by
  constructor
  · intro h
    unfold strtolModel at h
    by_cases h1 : digitsOf s = []
    · rw [if_pos h1] at h
      simp at h
    · rw [if_neg h1] at h
      by_cases h2 : restOf s ≠ []
      · rw [if_pos h2] at h
        simp at h
      · rw [if_neg h2] at h
        by_cases h3 : valOf s < lo ∨ hi < valOf s
        · rw [if_pos h3] at h
          simp at h
        · push_neg at h2 h3
          obtain ⟨hlo, hhi⟩ := h3
          have hsplit := List.takeWhile_append_dropWhile isSpaceC s.data
          have hw : ∀ c ∈ s.data.takeWhile isSpaceC, isSpaceC c = true :=
            fun c hc => List.mem_takeWhile_imp hc
          rcases hcs : s.data.dropWhile isSpaceC with _ | ⟨c, t⟩
          · exfalso
            apply h1
            unfold digitsOf
            rw [hcs]
            rfl
          · by_cases hm : c = '-'
            · subst hm
              have hss : stripSign (s.data.dropWhile isSpaceC) = t := by
                rw [hcs]
                unfold stripSign
                simp
              have hsg : signOf (s.data.dropWhile isSpaceC) = -1 := by
                rw [hcs]
                unfold signOf
                simp
              have hds : digitsOf s = t := by
                have h4 := List.takeWhile_append_dropWhile Char.isDigit t
                have h5 : restOf s = List.dropWhile Char.isDigit t := by
                  unfold restOf
                  rw [hss]
                rw [h5] at h2
                unfold digitsOf
                rw [hss]
                rw [h2, List.append_nil] at h4
                exact h4
              have hv : valOf s = -1 * (digitsVal t : Int) := by
                unfold valOf
                rw [hsg, hds]
              refine ⟨s.data.takeWhile isSpaceC, ['-'], t, ?_, hw,
                Or.inr (Or.inr rfl), ?_, ?_, ?_, ?_⟩
              · conv_lhs => rw [← hsplit, hcs]
                rw [List.append_assoc, List.singleton_append]
              · intro ht
                apply h1
                rw [hds, ht]
              · intro d hd
                have hd2 : d ∈ List.takeWhile Char.isDigit t := by
                  have h6 : List.takeWhile Char.isDigit t = t := by
                    have h7 : digitsOf s = List.takeWhile Char.isDigit t := by
                      unfold digitsOf
                      rw [hss]
                    rw [← h7, hds]
                  rw [h6]
                  exact hd
                exact List.mem_takeWhile_imp hd2
              · rw [if_pos rfl, ← hv]
                exact hlo
              · rw [if_pos rfl, ← hv]
                exact hhi
            · by_cases hp : c = '+'
              · subst hp
                have hss : stripSign (s.data.dropWhile isSpaceC) = t := by
                  rw [hcs]
                  unfold stripSign
                  simp
                have hsg : signOf (s.data.dropWhile isSpaceC) = 1 := by
                  rw [hcs]
                  unfold signOf
                  simp
                have hds : digitsOf s = t := by
                  have h4 := List.takeWhile_append_dropWhile Char.isDigit t
                  have h5 : restOf s = List.dropWhile Char.isDigit t := by
                    unfold restOf
                    rw [hss]
                  rw [h5] at h2
                  unfold digitsOf
                  rw [hss]
                  rw [h2, List.append_nil] at h4
                  exact h4
                have hv : valOf s = 1 * (digitsVal t : Int) := by
                  unfold valOf
                  rw [hsg, hds]
                refine ⟨s.data.takeWhile isSpaceC, ['+'], t, ?_, hw,
                  Or.inr (Or.inl rfl), ?_, ?_, ?_, ?_⟩
                · conv_lhs => rw [← hsplit, hcs]
                  rw [List.append_assoc, List.singleton_append]
                · intro ht
                  apply h1
                  rw [hds, ht]
                · intro d hd
                  have hd2 : d ∈ List.takeWhile Char.isDigit t := by
                    have h6 : List.takeWhile Char.isDigit t = t := by
                      have h7 : digitsOf s = List.takeWhile Char.isDigit t := by
                        unfold digitsOf
                        rw [hss]
                      rw [← h7, hds]
                    rw [h6]
                    exact hd
                  exact List.mem_takeWhile_imp hd2
                · rw [if_neg (by simp), ← hv]
                  exact hlo
                · rw [if_neg (by simp), ← hv]
                  exact hhi
              · have hss : stripSign (s.data.dropWhile isSpaceC) = c :: t := by
                  rw [hcs]
                  unfold stripSign
                  simp [hm, hp]
                have hsg : signOf (s.data.dropWhile isSpaceC) = 1 := by
                  rw [hcs]
                  unfold signOf
                  simp [hm]
                have hds : digitsOf s = c :: t := by
                  have h4 := List.takeWhile_append_dropWhile Char.isDigit (c :: t)
                  have h5 : restOf s = List.dropWhile Char.isDigit (c :: t) := by
                    unfold restOf
                    rw [hss]
                  rw [h5] at h2
                  unfold digitsOf
                  rw [hss]
                  rw [h2, List.append_nil] at h4
                  exact h4
                have hv : valOf s = 1 * (digitsVal (c :: t) : Int) := by
                  unfold valOf
                  rw [hsg, hds]
                refine ⟨s.data.takeWhile isSpaceC, [], c :: t, ?_, hw,
                  Or.inl rfl, ?_, ?_, ?_, ?_⟩
                · conv_lhs => rw [← hsplit, hcs]
                  rw [List.append_nil]
                · intro ht
                  cases ht
                · intro d hd
                  have hd2 : d ∈ List.takeWhile Char.isDigit (c :: t) := by
                    have h6 : List.takeWhile Char.isDigit (c :: t) = c :: t := by
                      have h7 : digitsOf s =
                          List.takeWhile Char.isDigit (c :: t) := by
                        unfold digitsOf
                        rw [hss]
                      rw [← h7, hds]
                    rw [h6]
                    exact hd
                  exact List.mem_takeWhile_imp hd2
                · rw [if_neg (by simp), ← hv]
                  exact hlo
                · rw [if_neg (by simp), ← hv]
                  exact hhi
  · rintro ⟨w, sgn, ds, hL, hw, hsgn, hne, hdig, hlo, hhi⟩
    obtain ⟨htw, hdw0⟩ := takeWhile_all Char.isDigit ds hdig
    rcases hsgn with h0 | h0 | h0
    · subst h0
      rcases ds with _ | ⟨d, ds'⟩
      · exact absurd rfl hne
      · have hdw : s.data.dropWhile isSpaceC = d :: ds' := by
          rw [hL, List.append_assoc, dropWhile_append_all isSpaceC w _ hw]
          simp only [List.nil_append]
          exact dropWhile_head_neg _ _ _
            (digit_not_space d (hdig d (List.mem_cons_self _ _)))
        have hdne : d ≠ '-' := by
          intro he
          have := hdig d (List.mem_cons_self _ _)
          rw [he] at this
          exact absurd this (by decide)
        have hdpe : d ≠ '+' := by
          intro he
          have := hdig d (List.mem_cons_self _ _)
          rw [he] at this
          exact absurd this (by decide)
        have hss : stripSign (s.data.dropWhile isSpaceC) = d :: ds' := by
          rw [hdw]
          unfold stripSign
          simp [hdne, hdpe]
        have hsg : signOf (s.data.dropWhile isSpaceC) = 1 := by
          rw [hdw]
          unfold signOf
          simp [hdne]
        have hds : digitsOf s = d :: ds' := by
          unfold digitsOf
          rw [hss, htw]
        have hrest : restOf s = [] := by
          unfold restOf
          rw [hss, hdw0]
        have hv : valOf s = 1 * (digitsVal (d :: ds') : Int) := by
          unfold valOf
          rw [hsg, hds]
        rw [if_neg (by simp)] at hlo hhi
        unfold strtolModel
        rw [hds, if_neg (by simp), hrest, if_neg (by simp), hv,
          if_neg (by omega)]
        rfl
    · subst h0
      have hdw : s.data.dropWhile isSpaceC = '+' :: ds := by
        rw [hL, List.append_assoc, dropWhile_append_all isSpaceC w _ hw]
        rw [List.singleton_append]
        exact dropWhile_head_neg _ _ _ (by decide)
      have hss : stripSign (s.data.dropWhile isSpaceC) = ds := by
        rw [hdw]
        unfold stripSign
        simp
      have hsg : signOf (s.data.dropWhile isSpaceC) = 1 := by
        rw [hdw]
        unfold signOf
        simp
      have hds : digitsOf s = ds := by
        unfold digitsOf
        rw [hss, htw]
      have hrest : restOf s = [] := by
        unfold restOf
        rw [hss, hdw0]
      have hv : valOf s = 1 * (digitsVal ds : Int) := by
        unfold valOf
        rw [hsg, hds]
      rw [if_neg (by simp)] at hlo hhi
      unfold strtolModel
      rw [hds, if_neg hne, hrest, if_neg (by simp), hv, if_neg (by omega)]
      rfl
    · subst h0
      have hdw : s.data.dropWhile isSpaceC = '-' :: ds := by
        rw [hL, List.append_assoc, dropWhile_append_all isSpaceC w _ hw]
        rw [List.singleton_append]
        exact dropWhile_head_neg _ _ _ (by decide)
      have hss : stripSign (s.data.dropWhile isSpaceC) = ds := by
        rw [hdw]
        unfold stripSign
        simp
      have hsg : signOf (s.data.dropWhile isSpaceC) = -1 := by
        rw [hdw]
        unfold signOf
        simp
      have hds : digitsOf s = ds := by
        unfold digitsOf
        rw [hss, htw]
      have hrest : restOf s = [] := by
        unfold restOf
        rw [hss, hdw0]
      have hv : valOf s = -1 * (digitsVal ds : Int) := by
        unfold valOf
        rw [hsg, hds]
      rw [if_pos rfl] at hlo hhi
      unfold strtolModel
      rw [hds, if_neg hne, hrest, if_neg (by simp), hv, if_neg (by omega)]
      rfl

/-- C7 counterexample: the operand string holding a space followed by 7
is not itself a base-10 signed integer (it has a leading whitespace
character), yet both parse functions accept it with value 7, because
strtoll and strtol skip leading whitespace; the claim's "accepted
exactly when" is therefore false at this input. -/
theorem C7_counterexample :
    Impl1.parse_i64 " 7" = some 7
    ∧ Impl2.parse_int " 7" = some 7
    ∧ ¬ claim_int_literal (-(2 ^ 63)) (2 ^ 63 - 1) " 7"
    ∧ ¬ claim_int_literal (-(2 ^ 31)) (2 ^ 31 - 1) " 7" :=
  ⟨by decide, by decide, by decide, by decide⟩

/-- C7 amended: an operand string is accepted exactly when, after
optional leading whitespace, an optional sign followed by one or more
base-10 digits spans the rest of the string and the value fits the
parse width (int64 for the first implementation, int32 for the second);
a rejected -a operand aborts the getopt loop with the
malformed-argument diagnostic and the usage exit code. -/
theorem C7_operand_grammar :
    (∀ s : String,
        (Impl1.parse_i64 s).isSome = true ↔
          spec_operand (-(2 ^ 63)) (2 ^ 63 - 1) s)
    ∧ (∀ s : String,
        (Impl2.parse_int s).isSome = true ↔
          spec_operand (-(2 ^ 31)) (2 ^ 31 - 1) s)
    ∧ (∀ s prog : String, Impl1.parse_i64 s = none →
        Impl1.parse {} [Tok.a s] prog =
          ([.err ("Error: invalid integer for -a: \x27" ++ s ++ "\x27\n")],
           .error .usage))
    ∧ (∀ s prog : String, Impl2.parse_int s = none →
        Impl2.parseLoop {} [Tok.a s] prog =
          ([.err ("Error: invalid integer for -a: \x27" ++ s ++ "\x27\n")],
           .error .usage)) := by
  refine ⟨fun s => strtolModel_isSome_iff _ _ s,
    fun s => strtolModel_isSome_iff _ _ s, ?_, ?_⟩
  · intro s prog hn
    simp [Impl1.parse, hn]
  · intro s prog hn
    simp [Impl2.parseLoop, hn]

/-- C7 witness: a concrete accepted operand with whitespace and sign,
and concrete rejections (a trailing character for the first
implementation, an int32 range overflow for the second). -/
theorem C7_operand_grammar_witness :
    spec_operand (-(2 ^ 63)) (2 ^ 63 - 1) " -42"
    ∧ Impl1.parse {} [Tok.a "4x"] "calc" =
        ([.err "Error: invalid integer for -a: \x274x\x27\n"], .error .usage)
    ∧ Impl2.parseLoop {} [Tok.a "9999999999"] "calc" =
        ([.err "Error: invalid integer for -a: \x279999999999\x27\n"],
         .error .usage) :=
  ⟨(C7_operand_grammar.1 " -42").mp (by decide),
   C7_operand_grammar.2.2.1 "4x" "calc" (by decide),
   C7_operand_grammar.2.2.2 "9999999999" "calc" (by decide)⟩

/-- C6 counterexample: in the second implementation the successful
result of the unsigned-valued-by-nature fact request and the successful
result of the signed sub request are both rendered by one and the same
signed integer conversion of the single value field, and the fact
success ml_fact 3 is exhaustively the record holding a plain signed
value and an error kind: the result as used carries no two-variant
representation tag for print formatting to consult. -/
theorem C6_counterexample :
    Impl2.run_operation .fact 3 0 =
      ([.engine "ml_fact",
        .out (toString (Impl2.ml_fact (Impl2.toU32 3)).value ++ "\n")], .ok)
    ∧ Impl2.run_operation .sub 0 1 =
      ([.engine "ml_sub", .out (toString (Impl2.ml_sub 0 1).value ++ "\n")],
       .ok)
    ∧ Impl2.ml_fact 3 = { value := 6, error := .ok } :=
  ⟨by decide, by decide, by decide⟩

/-- C6 amended: in the first implementation every successful result
carries the i64 u64 kind tag and print_result formats the payload
according to it, signed decimal for i64 and unsigned decimal for u64,
formats that genuinely differ on payloads with the top bit set; the
second implementation's result carries only a plain signed value and an
error kind (it is fully determined by those two fields), and
run_operation prints every success with the single signed conversion of
the value field. -/
theorem C6_result_tag :
    (∀ r : Impl1.ml_result, r.error = .ok →
        Impl1.print_result r =
          ([.out ((if r.kind = .i64 then toString (Impl1.toSigned r.bits)
              else toString r.bits) ++ "\n")], .ok))
    ∧ toString (Impl1.toSigned (2 ^ 64 - 1)) ≠ toString ((2 ^ 64 - 1 : Nat))
    ∧ (∀ a b : Int,
        Impl2.run_operation .sub a b =
          ([.engine "ml_sub", .out (toString (Impl2.ml_sub a b).value ++ "\n")],
           .ok))
    ∧ (∀ a : Int, 0 ≤ a →
        Impl2.run_operation .fact a 0 =
          ([.engine "ml_fact",
            .out (toString (Impl2.ml_fact (Impl2.toU32 a)).value ++ "\n")],
           .ok))
    ∧ (∀ r : Impl2.ml_result, r = ⟨r.value, r.error⟩) := by
  refine ⟨?_, by decide, ?_, ?_, fun r => rfl⟩
  · intro r h
    unfold Impl1.print_result
    rw [if_neg (by simp [h])]
    by_cases hk : r.kind = .i64
    · rw [if_pos hk, if_pos hk]
    · rw [if_neg hk, if_neg hk]
  · intro a b
    rfl
  · intro a h0
    simp only [Impl2.run_operation]
    rw [if_neg (by omega : ¬a < 0)]

/-- C6 witness: the same 64-bit payload prints as -1 under the i64 tag
and as 18446744073709551615 under the u64 tag in the first
implementation, and a concrete fact success in the second prints via
the signed conversion. -/
theorem C6_result_tag_witness :
    Impl1.print_result ⟨.ok, .i64, 2 ^ 64 - 1⟩ =
      ([.out (toString (Impl1.toSigned (2 ^ 64 - 1)) ++ "\n")], .ok)
    ∧ Impl1.print_result ⟨.ok, .u64, 2 ^ 64 - 1⟩ =
      ([.out (toString ((2 ^ 64 - 1 : Nat)) ++ "\n")], .ok)
    ∧ Impl2.run_operation .fact 3 0 =
      ([.engine "ml_fact",
        .out (toString (Impl2.ml_fact (Impl2.toU32 3)).value ++ "\n")], .ok) :=
  ⟨C6_result_tag.1 ⟨.ok, .i64, 2 ^ 64 - 1⟩ rfl,
   C6_result_tag.1 ⟨.ok, .u64, 2 ^ 64 - 1⟩ rfl,
   C6_result_tag.2.2.2.1 3 (by decide)⟩
